import Mathlib

/-!
# rados-omap: a verification development

A shallow embedding of `rados-omap.c`, the omap write benchmark, and theorems
about its key-value generator (`mk_kvpairs`), its batching loop, its
elapsed-time computation, the parsing of its command line (`parse_int` and the
argument loop of `main`) and the release of its handles (`cleanup`).

Conventions of the embedding.

* A C `int` is an `Int` in `[INT_MIN, INT_MAX]`; the result of every `int`
  addition of the source is reduced with `wrap32` (two's complement).
* `%` of C truncates toward zero: `Int.tmod`.
* A C string is a `String`; a byte is a `Nat` below 256.
* Code that leaves through `cleanup` (which calls `exit`) or that stores through
  a null pointer yields `none`, or an error that names the message printed.
* The library call `atoi` is `(int) strtol(v, NULL, 10)`.
* `calloc` and `malloc` answer through an oracle, `Heap`: a request may be
  refused. The program frees nothing, so its requests are numbered from 0 and
  the `k`-th is made while the blocks granted before it are held.
-/

namespace RadosOmap

/-! ## Machine integers -/

/-- Smallest value of a 32-bit C `int`. -/
def INT_MIN : Int := -2147483648

/-- Largest value of a 32-bit C `int`. -/
def INT_MAX : Int := 2147483647

/-- Reduction of an integer to the 32-bit two's complement range. -/
def wrap32 (x : Int) : Int := (x + 2147483648) % 4294967296 - 2147483648

/-- Conversion of a C `int` to `size_t` (64 bits). -/
def to_size_t (x : Int) : Nat := (x % 18446744073709551616).toNat

/-! ## `sprintf(buf, "%08d", x)` -/

/-- Left padding with the character `0` up to a minimum width. -/
def zero_pad (width : Nat) (ds : List Char) : List Char :=
  List.replicate (width - ds.length) '0' ++ ds

/-- The text written by `sprintf(keys[i], "%08d", x)`: the decimal digits of
`x`, padded on the left with zeros to a minimum field width of 8, the sign of
a negative number coming before the padding. -/
def sprintf_08d (x : Int) : String :=
  if x < 0 then String.mk ('-' :: zero_pad 7 (Nat.toDigits 10 x.natAbs))
  else String.mk (zero_pad 8 (Nat.toDigits 10 x.toNat))

/-! ## `mk_kvpairs` -/

/-- The three parallel arrays `keys`, `vals`, `lens` that `mk_kvpairs` hands
back through its output parameters (entries `0 .. kvpair_num - 1`; the spare
zeroed entry that `calloc(kvpair_num+1, ..)` leaves at the end is not kept, and
neither is the terminating NUL stored after each value). -/
structure KVPairs where
  keys : List String
  vals : List (List Nat)
  lens : List Nat
deriving DecidableEq, Repr

/-- The byte stored at offset `k` of the value of entry `i`:
`'0' + ((starting_key + i + k) % 10)`, kept in a `char`. -/
def value_byte (starting_key i k : Int) : Nat :=
  ((48 + Int.tmod (wrap32 (wrap32 (starting_key + i) + k)) 10) % 256).toNat

/-- The inner loop `for (cp2 = vals[i], k=0; k<value_size; k++, cp2++)`,
entered at `k` with `remaining` iterations to go. -/
def value_loop (starting_key i : Int) : (remaining : Nat) → (k : Int) → List Nat
  | 0, _ => []
  | r + 1, k => value_byte starting_key i k :: value_loop starting_key i r (k + 1)

/-- The arrays that the outer loop `for (i=0; i<kvpair_num; i++)` has filled when
it completes `remaining` iterations from `i` on: the content of a batch that
`mk_kvpairs` returns. -/
def kvpairs_filled (starting_key value_size : Int) : (remaining : Nat) → (i : Int) → KVPairs
  | 0, _ => ⟨[], [], []⟩
  | r + 1, i =>
    let rest := kvpairs_filled starting_key value_size r (i + 1)
    ⟨sprintf_08d (wrap32 (starting_key + i)) :: rest.keys,
     value_loop starting_key i value_size.toNat 0 :: rest.vals,
     to_size_t value_size :: rest.lens⟩

/-! ## The allocator -/

/-- The answers of the allocator to the requests of the program (those of the
library are not counted). The program never frees a block, so its `k`-th
request (counted from 0) is made while the blocks granted before are all still
held; `grants k size` tells whether that request, for `size` bytes, gets a
block. -/
structure Heap where
  grants : Nat → Nat → Bool

/-- Whether `malloc(size)`, made as the `k`-th request, returns a block and not
`NULL`. A request above `PTRDIFF_MAX` bytes is never granted. -/
def Heap.malloc (heap : Heap) (k size : Nat) : Bool :=
  decide (size < 9223372036854775808) && heap.grants k size

/-- Whether `calloc(nmemb, size)`, made as the `k`-th request, returns a block. -/
def Heap.calloc (heap : Heap) (k nmemb size : Nat) : Bool :=
  heap.malloc k (nmemb * size)

/-- An allocator that grants every request that can be granted at all. -/
def Heap.unlimited : Heap := ⟨fun _ _ => true⟩

/-- An allocator that grants the first `n` requests of the process and none
after them. -/
def Heap.of_blocks (n : Nat) : Heap := ⟨fun k _ => decide (k < n)⟩

/-- The outer loop `for (i=0; i<kvpair_num; i++)`, entered at `i` with
`remaining` iterations to go, its next allocation being the `k`-th request of
the process. Neither `keys[i] = malloc(30)` nor
`vals[i] = malloc(value_size+safety_margin)` is checked: `sprintf` and the
stores `*cp2 = ..` go through the pointer, and a null pointer ends the process,
`none`. -/
def kvpairs_loop (heap : Heap) (starting_key value_size : Int) :
    (remaining : Nat) → (i : Int) → (k : Nat) → Option KVPairs
  | 0, _, _ => some ⟨[], [], []⟩
  | r + 1, i, k =>
    if heap.malloc k 30 = false then none
    else if heap.malloc (k + 1) (to_size_t (wrap32 (value_size + 10))) = false then none
    else
      match kvpairs_loop heap starting_key value_size r (i + 1) (k + 2) with
      | none => none
      | some rest =>
        some ⟨sprintf_08d (wrap32 (starting_key + i)) :: rest.keys,
          value_loop starting_key i value_size.toNat 0 :: rest.vals,
          to_size_t value_size :: rest.lens⟩

/-- Whether the three requests `calloc(kvpair_num+1, ..)` for `keys`, `vals` and
`lens`, the `k`-th to `k+2`-th of the process, each return a block. The number
of entries is `(size_t)(kvpair_num+1)`, the sum being an `int`; an entry takes
8 bytes. -/
def callocs_granted (heap : Heap) (k : Nat) (kvpair_num : Int) : Bool :=
  heap.calloc k (to_size_t (wrap32 (kvpair_num + 1))) 8 &&
    heap.calloc (k + 1) (to_size_t (wrap32 (kvpair_num + 1))) 8 &&
    heap.calloc (k + 2) (to_size_t (wrap32 (kvpair_num + 1))) 8

/-- The number of allocation requests of a call of `mk_kvpairs` that returns. -/
def requests (kvpair_num : Int) : Nat := 3 + 2 * kvpair_num.toNat

/-- The function `mk_kvpairs(kvpair_num, starting_key, value_size, ..)`, its
first allocation being the `k`-th request of the process. When one of the three
`calloc` calls returns `NULL` the function leaves through `cleanup`, `none`;
when a `malloc` of the loop does, the process ends at the store through the
null pointer, `none` as well (`callocs_granted` tells the two apart).
Otherwise the three arrays are handed back. -/
def mk_kvpairs (heap : Heap) (k : Nat) (kvpair_num starting_key value_size : Int) :
    Option KVPairs :=
  if callocs_granted heap k kvpair_num = false then none
  else kvpairs_loop heap starting_key value_size kvpair_num.toNat 0 (k + 3)

/-! ## The write loop of `main` -/

/-- What librados answers during the loop: for the `n`-th iteration (from 0),
whether `rados_create_write_op()` gives a non-null operation, and the value
`err` that `rados_write_op_operate2(..)` returns. -/
structure Session where
  create_write_op : Nat → Bool
  operate2 : Nat → Int

/-- One call of `rados_write_op_operate2`: the value of `i` the batch was made
for, the arrays given to `rados_write_op_omap_set` and the count
`(size_t)kvpairs_per_call` given with them. -/
structure Submission where
  starting_key : Int
  batch : KVPairs
  num : Nat
deriving DecidableEq, Repr

/-- How the loop was left. -/
inductive Ending
  | finished
  | exit_failure
  | killed
  | out_of_fuel
deriving DecidableEq, Repr

/-- What a run of the loop did: the values of `i` for which `mk_kvpairs`
returned a batch, the submissions made, and how the loop was left. -/
structure LoopRun where
  generated : List Int
  submitted : List Submission
  ending : Ending
deriving DecidableEq, Repr

/-- The loop `for (i=0; i<total_kvpairs; i += kvpairs_per_call) { .. }` of
`main`, entered at its `n`-th iteration with the value `i`, the next allocation
being the `k`-th request of the process. A call of `mk_kvpairs` whose `calloc`
fails, a null write operation and a non-zero `err` leave through `cleanup`,
which exits with `EXIT_FAILURE`; a call of `mk_kvpairs` that stores through a
null pointer kills the process. No batch is ever freed. The `DEBUG` printing
has no effect on what is generated or submitted and is left out. -/
def omap_write_loop (heap : Heap) (s : Session)
    (kvpairs_per_call total_kvpairs value_size : Int) :
    (fuel : Nat) → (n : Nat) → (i : Int) → (k : Nat) → LoopRun
  | 0, _, _, _ => ⟨[], [], Ending.out_of_fuel⟩
  | fuel + 1, n, i, k =>
    if i < total_kvpairs then
      match mk_kvpairs heap k kvpairs_per_call i value_size with
      | none =>
        if callocs_granted heap k kvpairs_per_call then ⟨[], [], Ending.killed⟩
        else ⟨[], [], Ending.exit_failure⟩
      | some kv =>
        if s.create_write_op n = false then ⟨[i], [], Ending.exit_failure⟩
        else if s.operate2 n ≠ 0 then
          ⟨[i], [⟨i, kv, to_size_t kvpairs_per_call⟩], Ending.exit_failure⟩
        else
          let rest := omap_write_loop heap s kvpairs_per_call total_kvpairs value_size fuel
            (n + 1) (wrap32 (i + kvpairs_per_call)) (k + requests kvpairs_per_call)
          ⟨i :: rest.generated, ⟨i, kv, to_size_t kvpairs_per_call⟩ :: rest.submitted,
            rest.ending⟩
    else ⟨[], [], Ending.finished⟩

/-- A session in which every write operation is created and every submission
returns 0. -/
def Session.all_ok : Session := ⟨fun _ => true, fun _ => 0⟩

/-- A session whose `k`-th submission (counted from 1) returns the error `-5`
and whose other calls succeed. -/
def Session.fails_at (k : Nat) : Session :=
  ⟨fun _ => true, fun n => if n + 1 = k then -5 else 0⟩

/-! ## Elapsed time -/

/-- Reduction of an integer to the 64-bit two's complement range (`time_t` and
`long`). -/
def wrap64 (x : Int) : Int :=
  (x + 9223372036854775808) % 18446744073709551616 - 9223372036854775808

/-- The C `struct timespec`. -/
structure timespec where
  tv_sec : Int
  tv_nsec : Int
deriving DecidableEq, Repr

/-- What `clock_gettime(CLOCK_REALTIME, &now)` stores: whole seconds since the
Epoch in a 64-bit `time_t`, and nanoseconds below one second. -/
def is_clock_time (t : timespec) : Prop :=
  0 ≤ t.tv_sec ∧ t.tv_sec < 9223372036854775808 ∧ 0 ≤ t.tv_nsec ∧ t.tv_nsec < 1000000000

instance (t : timespec) : Decidable (is_clock_time t) := by
  unfold is_clock_time; infer_instance

/-- The number of nanoseconds since the Epoch that a timestamp stands for. -/
def timespec.nanos (t : timespec) : Int := t.tv_sec * 1000000000 + t.tv_nsec

/-- The computation of `delta` from `t0` and `tf` at the end of `main`. -/
def elapsed (t0 tf : timespec) : timespec :=
  let sec := wrap64 (tf.tv_sec - t0.tv_sec)
  let nsec := wrap64 (tf.tv_nsec - t0.tv_nsec)
  if tf.tv_nsec < t0.tv_nsec then ⟨wrap64 (sec - 1), wrap64 (nsec + 1000000000)⟩
  else ⟨sec, nsec⟩

/-- How the timed part of `main` ends: it prints the elapsed time and returns
`status`, or it has left through `exit(status)` without printing it, or the
process was killed in `mk_kvpairs`, or the loop is still running. -/
inductive MainResult
  | returned (status : Int) (delta : timespec)
  | exited (status : Int)
  | killed
  | running
deriving DecidableEq, Repr

/-- The value of `EXIT_FAILURE`. -/
def EXIT_FAILURE : Int := 1

/-- The timed part of `main`: `t0 = time_now()`, the write loop,
`tf = time_now()`, the computation and printing of `delta`, `return 0`. The two
clock readings are given; the first allocation of the loop is request 0. -/
def timed_run (heap : Heap) (s : Session) (kvpairs_per_call total_kvpairs value_size : Int)
    (t0 tf : timespec) (fuel : Nat) : LoopRun × MainResult :=
  let run := omap_write_loop heap s kvpairs_per_call total_kvpairs value_size fuel 0 0 0
  match run.ending with
  | Ending.finished => (run, MainResult.returned 0 (elapsed t0 tf))
  | Ending.exit_failure => (run, MainResult.exited EXIT_FAILURE)
  | Ending.killed => (run, MainResult.killed)
  | Ending.out_of_fuel => (run, MainResult.running)

/-! ## Reading keys -/

/-- The number that a list of decimal digit characters denotes, most
significant digit first. -/
def digits_value (cs : List Char) : Nat :=
  cs.foldl (fun n c => n * 10 + (c.toNat - '0'.toNat)) 0

/-! ## `atoi` and `parse_int` -/

/-- The messages with which the program leaves through `cleanup`. -/
inductive Failure
  | not_an_integer
  | not_a_positive_integer_value
  | not_a_valid_parameter_name
  | no_parameter_value_seen
  | read_not_yet_supported
  | invalid_operation_type
  | invalid_parameter_name
  | cluster_handle
  | config_file
  | command_line_arguments
  | connect
  | open_pool
  | write_object
  | in_write_loop
deriving DecidableEq, Repr

/-- Results of fallible code can be compared. -/
instance {ε α : Type} [DecidableEq ε] [DecidableEq α] : DecidableEq (Except ε α)
  | Except.ok a, Except.ok b =>
    if h : a = b then isTrue (by rw [h]) else isFalse (fun e => h (Except.ok.inj e))
  | Except.error a, Except.error b =>
    if h : a = b then isTrue (by rw [h]) else isFalse (fun e => h (Except.error.inj e))
  | Except.ok _, Except.error _ => isFalse (fun e => Except.noConfusion e)
  | Except.error _, Except.ok _ => isFalse (fun e => Except.noConfusion e)

/-- The C `enum int_parse_type`. -/
inductive int_parse_type
  | signed_int
  | non_negative
  | positive
deriving DecidableEq, Repr

/-- The C `enum omap_optype`. -/
inductive omap_optype
  | omap_read
  | omap_write
deriving DecidableEq, Repr

/-- The white space that `atoi` skips (`isspace` in the C locale). -/
def isspace (c : Char) : Bool :=
  c = ' ' || c = '\t' || c = '\n' || c = '\x0b' || c = '\x0c' || c = '\r'

/-- The sign that `atoi` reads after the white space: whether it is a minus, and
the characters after it. -/
def read_sign : List Char → Bool × List Char
  | '-' :: t => (true, t)
  | '+' :: t => (false, t)
  | t => (false, t)

/-- The library call `strtol(v, NULL, 10)`: white space, an optional sign, the
longest run of decimal digits (the value is 0 when there is none), whatever
follows being ignored; a value outside the 64-bit `long` is replaced by
`LONG_MIN` or `LONG_MAX`. -/
def strtol (v : String) : Int :=
  let signed := read_sign (v.data.dropWhile isspace)
  let magnitude : Int := digits_value (signed.2.takeWhile Char.isDigit)
  let value := if signed.1 then -magnitude else magnitude
  if value < -9223372036854775808 then -9223372036854775808
  else if 9223372036854775807 < value then 9223372036854775807
  else value

/-- The library call `atoi(v)`, as the C library the program is linked with
defines it: `(int) strtol(v, NULL, 10)`. -/
def atoi (v : String) : Int := wrap32 (strtol v)

/-- The function `parse_int(v, msg, parse_type)`; `msg` is not used by the
source. Both calls of `cleanup` end the process. -/
def parse_int (v : String) (parse_type : int_parse_type) : Except Failure Int :=
  let result := atoi v
  if result = 0 ∧ v ≠ "0" then Except.error Failure.not_an_integer
  else
    match parse_type with
    | int_parse_type.non_negative =>
      if result ≥ 0 then Except.ok result
      else Except.error Failure.not_a_positive_integer_value
    | int_parse_type.positive =>
      if result > 0 then Except.ok result
      else Except.error Failure.not_a_positive_integer_value
    | int_parse_type.signed_int => Except.ok result

/-! ## The command line -/

/-- The variables of `main` that the command line sets. -/
structure Config where
  kvpairs_per_call : Int
  total_kvpairs : Int
  value_size : Int
  optype : omap_optype
deriving DecidableEq, Repr

/-- The values the variables are initialised with. -/
def Config.initial : Config := ⟨1, 10, 2, omap_optype.omap_write⟩

/-- The test `strncmp(argv[arg], "--", 2) == 0`. -/
def has_dashes (a : String) : Bool := a.data.take 2 = ['-', '-']

/-- The loop `while (arg < argc) { .. arg += 2; }` of `main`, on the arguments
from `argv[arg]` on. The comparisons of the `operation` branch are made on
`prmname`, as in the source. -/
def parse_loop : List String → Config → Except Failure Config
  | [], cfg => Except.ok cfg
  | [a], _ =>
    if has_dashes a then Except.error Failure.no_parameter_value_seen
    else Except.error Failure.not_a_valid_parameter_name
  | a :: prmval :: rest, cfg =>
    if has_dashes a = false then Except.error Failure.not_a_valid_parameter_name
    else
      let prmname := String.mk (a.data.drop 2)
      if prmname = "total-kvpairs" then
        match parse_int prmval int_parse_type.non_negative with
        | Except.error e => Except.error e
        | Except.ok r => parse_loop rest { cfg with total_kvpairs := r }
      else if prmname = "kvpairs-per-call" then
        match parse_int prmval int_parse_type.positive with
        | Except.error e => Except.error e
        | Except.ok r => parse_loop rest { cfg with kvpairs_per_call := r }
      else if prmname = "value-size" then
        match parse_int prmval int_parse_type.non_negative with
        | Except.error e => Except.error e
        | Except.ok r => parse_loop rest { cfg with value_size := r }
      else if prmname = "operation" then
        if prmname = "read" then Except.error Failure.read_not_yet_supported
        else if prmname = "write" then
          parse_loop rest { cfg with optype := omap_optype.omap_write }
        else Except.error Failure.invalid_operation_type
      else Except.error Failure.invalid_parameter_name

/-- The parsing of the command line in `main`; `args` is `argv[1]`,
`argv[2]`, .. -/
def parse_command_line (args : List String) : Except Failure Config :=
  parse_loop args Config.initial

/-- The flags the usage message names. -/
def known_flags : List String :=
  ["--operation", "--kvpairs-per-call", "--total-kvpairs", "--value-size"]

/-- The value given with the last occurrence of a flag, the command line being
read as pairs of a flag and a value. -/
def last_flag_value (flag : String) : List String → Option String
  | f :: v :: rest =>
    match last_flag_value flag rest with
    | some x => some x
    | none => if f = flag then some v else none
  | _ => none

/-- Whether the whole of a text is a base-10 integer literal: an optional sign,
then one or more decimal digits and nothing else. -/
def is_int_literal (v : String) : Bool :=
  let ds := (read_sign v.data).2
  !ds.isEmpty && ds.all Char.isDigit

/-! ## `main` and `cleanup` -/

/-- The librados calls that create or release a handle, with the handle they
store or are given. -/
inductive Call
  | rados_create2 (cluster : Nat)
  | rados_ioctx_create (io : Nat)
  | rados_ioctx_destroy (io : Nat)
  | rados_shutdown (cluster : Nat)
deriving DecidableEq, Repr

/-- The file-scope variables `cluster`, `cluster_exists`, `io` and `io_exists`.
A handle is a number, the null handle is 0. -/
structure Globals where
  cluster : Nat
  cluster_exists : Int
  io : Nat
  io_exists : Int
deriving DecidableEq, Repr

/-- Static storage starts out zeroed. -/
def Globals.initial : Globals := ⟨0, 0, 0, 0⟩

/-- The releases that `cleanup` makes before it prints the usage message and
calls `exit(EXIT_FAILURE)`. -/
def cleanup (g : Globals) : List Call :=
  (if g.io_exists ≠ 0 then [Call.rados_ioctx_destroy g.io] else [])
    ++ (if g.cluster_exists ≠ 0 then [Call.rados_shutdown g.cluster] else [])

/-- What the world outside answers to one execution of `main`: the handles that
`rados_create2` and `rados_ioctx_create` store, the values the set-up calls
return, the answers of librados and of the allocator during the loop and the
two clock readings. -/
structure Env where
  cluster : Nat
  io : Nat
  rados_create2 : Int
  rados_conf_read_file : Int
  rados_conf_parse_argv : Int
  rados_connect : Int
  rados_ioctx_create : Int
  rados_write : Int
  session : Session
  heap : Heap
  t0 : timespec
  tf : timespec

/-- How the process ends: `main` returns after printing the elapsed time, or
`cleanup` calls `exit` after a message, or the store through a null pointer in
`mk_kvpairs` kills it, or the loop is still running. -/
inductive ProcessEnd
  | returned (status : Int) (delta : timespec)
  | exited (status : Int) (message : Failure)
  | killed
  | running
deriving DecidableEq, Repr

/-- One execution of `main`: the configuration parsed, the handle calls made in
order, the batches generated and submitted, and the end of the process. -/
structure MainRun where
  config : Option Config
  calls : List Call
  generated : List Int
  submitted : List Submission
  ending : ProcessEnd
deriving DecidableEq, Repr

/-- The function `main`. The handle of `rados_ioctx_create` goes to the variable
`io` declared in `main`; the file-scope `io` that `cleanup` reads is never
assigned. The path that ends with `return 0` holds no call of `cleanup`,
`rados_ioctx_destroy` or `rados_shutdown`. -/
def main (env : Env) (args : List String) (fuel : Nat) : MainRun :=
  let g0 := Globals.initial
  match parse_command_line args with
  | Except.error e => ⟨none, cleanup g0, [], [], ProcessEnd.exited EXIT_FAILURE e⟩
  | Except.ok cfg =>
    if env.rados_create2 ≠ 0 then
      ⟨some cfg, cleanup g0, [], [], ProcessEnd.exited EXIT_FAILURE Failure.cluster_handle⟩
    else
      let g1 : Globals := { g0 with cluster := env.cluster, cluster_exists := 1 }
      let c1 := [Call.rados_create2 env.cluster]
      if env.rados_conf_read_file ≠ 0 then
        ⟨some cfg, c1 ++ cleanup g1, [], [], ProcessEnd.exited EXIT_FAILURE Failure.config_file⟩
      else if env.rados_conf_parse_argv ≠ 0 then
        ⟨some cfg, c1 ++ cleanup g1, [], [],
          ProcessEnd.exited EXIT_FAILURE Failure.command_line_arguments⟩
      else if env.rados_connect ≠ 0 then
        ⟨some cfg, c1 ++ cleanup g1, [], [], ProcessEnd.exited EXIT_FAILURE Failure.connect⟩
      else if env.rados_ioctx_create ≠ 0 then
        ⟨some cfg, c1 ++ cleanup g1, [], [], ProcessEnd.exited EXIT_FAILURE Failure.open_pool⟩
      else
        let g2 : Globals := { g1 with io_exists := 1 }
        let c2 := c1 ++ [Call.rados_ioctx_create env.io]
        if env.rados_write ≠ 0 then
          ⟨some cfg, c2 ++ cleanup g2, [], [],
            ProcessEnd.exited EXIT_FAILURE Failure.write_object⟩
        else
          let run := timed_run env.heap env.session cfg.kvpairs_per_call cfg.total_kvpairs
            cfg.value_size env.t0 env.tf fuel
          match run.2 with
          | MainResult.returned status delta =>
            ⟨some cfg, c2, run.1.generated, run.1.submitted, ProcessEnd.returned status delta⟩
          | MainResult.exited status =>
            ⟨some cfg, c2 ++ cleanup g2, run.1.generated, run.1.submitted,
              ProcessEnd.exited status Failure.in_write_loop⟩
          | MainResult.killed =>
            ⟨some cfg, c2, run.1.generated, run.1.submitted, ProcessEnd.killed⟩
          | MainResult.running =>
            ⟨some cfg, c2, run.1.generated, run.1.submitted, ProcessEnd.running⟩

/-- A world in which every call succeeds; the cluster handle is 7, the I/O
context is 9, and the allocator grants the first million requests. -/
def Env.all_ok : Env :=
  ⟨7, 9, 0, 0, 0, 0, 0, 0, Session.all_ok, Heap.of_blocks 1000000, ⟨10, 500000000⟩,
    ⟨11, 200000000⟩⟩

/-- A world in which the set-up write `rados_write` returns the error -5. -/
def Env.write_fails : Env := { Env.all_ok with rados_write := -5 }

/-- A world in which the 3rd batch submission returns an error. -/
def Env.batch_fails : Env := { Env.all_ok with session := Session.fails_at 3 }

/-- A world in which `rados_connect` returns the error -5. -/
def Env.connect_fails : Env := { Env.all_ok with rados_connect := -5 }

/-! ## Machine integers: lemmas -/

theorem wrap32_of_range (x : Int) (h0 : -2147483648 ≤ x) (h1 : x ≤ 2147483647) :
    wrap32 x = x := by
  unfold wrap32; omega

theorem value_loop_get (s i : Int) : ∀ (r : Nat) (k : Int) (m : Nat), m < r →
    (value_loop s i r k)[m]? = some (value_byte s i (k + m)) := by
  intro r
  induction r with
  | zero => intro k m h; omega
  | succ r ih =>
    intro k m h
    cases m with
    | zero => simp [value_loop]
    | succ m =>
      simp only [value_loop, List.getElem?_cons_succ]
      rw [ih (k + 1) m (by omega)]
      congr 2
      push_cast
      ring

theorem kvpairs_filled_get (s v : Int) : ∀ (r : Nat) (i : Int) (j : Nat), j < r →
    (kvpairs_filled s v r i).keys[j]? = some (sprintf_08d (wrap32 (s + (i + j)))) ∧
    (kvpairs_filled s v r i).vals[j]? = some (value_loop s (i + j) v.toNat 0) ∧
    (kvpairs_filled s v r i).lens[j]? = some (to_size_t v) := by
  intro r
  induction r with
  | zero => intro i j h; omega
  | succ r ih =>
    intro i j h
    cases j with
    | zero => simp [kvpairs_filled]
    | succ j =>
      obtain ⟨h1, h2, h3⟩ := ih (i + 1) j (by omega)
      have e : i + 1 + (j : Int) = i + ((j + 1 : Nat) : Int) := by push_cast; ring
      simp only [kvpairs_filled, List.getElem?_cons_succ]
      rw [h1, h2, h3, e]
      exact ⟨rfl, rfl, rfl⟩

/-- A loop that completes has filled the arrays. -/
theorem kvpairs_loop_some (heap : Heap) (s v : Int) : ∀ (r : Nat) (i : Int) (k : Nat)
    (b : KVPairs), kvpairs_loop heap s v r i k = some b → b = kvpairs_filled s v r i := by
  intro r
  induction r with
  | zero =>
    intro i k b h
    simp only [kvpairs_loop] at h
    exact (Option.some.inj h).symm
  | succ r ih =>
    intro i k b h
    simp only [kvpairs_loop] at h
    split at h
    · cases h
    · split at h
      · cases h
      · cases hrest : kvpairs_loop heap s v r (i + 1) (k + 2) with
        | none => rw [hrest] at h; cases h
        | some rest =>
          rw [hrest] at h
          have e := ih (i + 1) (k + 2) rest hrest
          rw [← Option.some.inj h, e]
          rfl

theorem mk_kvpairs_some (heap : Heap) (k : Nat) (c s v : Int) (b : KVPairs)
    (h : mk_kvpairs heap k c s v = some b) : b = kvpairs_filled s v c.toNat 0 := by
  unfold mk_kvpairs at h
  split at h
  · cases h
  · exact kvpairs_loop_some heap s v c.toNat 0 (k + 3) b h

theorem value_byte_of_range (s i k : Int) (hs : 0 ≤ s) (hi : 0 ≤ i) (hk : 0 ≤ k)
    (hmax : s + i + k ≤ 2147483647) :
    value_byte s i k = '0'.toNat + (s + i + k).toNat % 10 := by
  unfold value_byte
  rw [wrap32_of_range (s + i) (by omega) (by omega),
    wrap32_of_range (s + i + k) (by omega) (by omega),
    Int.tmod_eq_emod (by omega) (by decide)]
  have h0 : ('0'.toNat : Nat) = 48 := by decide
  rw [h0]
  omega

/-- C2 (as amended): in a batch returned by `mk_kvpairs` with startingIndex ≥ 0,
for every position j < count and byte offset k < valueSize such that
startingIndex + j + k ≤ INT_MAX (the `int` sum does not overflow), byte k of the
j-th value is the ASCII digit '0' + ((startingIndex + j + k) mod 10). -/
theorem mk_kvpairs_value_bytes (heap : Heap) (k0 : Nat)
    (count startingIndex valueSize : Int) (b : KVPairs)
    (j k : Nat) (hb : mk_kvpairs heap k0 count startingIndex valueSize = some b)
    (hs : 0 ≤ startingIndex) (hj : (j : Int) < count) (hk : (k : Int) < valueSize)
    (hmax : startingIndex + j + k ≤ INT_MAX) :
    ∃ val, b.vals[j]? = some val ∧
      val[k]? = some ('0'.toNat + (startingIndex + j + k).toNat % 10) := by
  simp only [INT_MAX] at hmax
  rw [mk_kvpairs_some heap k0 count startingIndex valueSize b hb]
  have hj' : j < count.toNat := by omega
  have hk' : k < valueSize.toNat := by omega
  refine ⟨_, (kvpairs_filled_get startingIndex valueSize count.toNat 0 j hj').2.1, ?_⟩
  rw [value_loop_get startingIndex (0 + j) valueSize.toNat 0 k hk']
  rw [value_byte_of_range startingIndex (0 + j) (0 + k) hs (by omega) (by omega) (by omega)]
  simp

/-- Witness of C2: byte 3 of the value of pair 2 of the batch made for
startingIndex 9 is the digit of (9 + 2 + 3) mod 10. -/
theorem mk_kvpairs_value_bytes_witness :
    ∃ val, (⟨["00000009", "00000010", "00000011"],
        [[57, 48, 49, 50], [48, 49, 50, 51], [49, 50, 51, 52]], [4, 4, 4]⟩ : KVPairs).vals[2]?
        = some val ∧
      val[3]? = some ('0'.toNat + ((9 : Int) + (2 : Nat) + (3 : Nat)).toNat % 10) :=
  mk_kvpairs_value_bytes (Heap.of_blocks 9) 0 3 9 4 _ 2 3 (by decide) (by decide) (by decide)
    (by decide)
    (by decide)

/-- C2 as stated fails: with startingIndex = INT_MAX the sum
`starting_key + i + k` for j = 0, k = 1 leaves the `int` range, and byte 1 of the
value is 40, not the digit '0' + ((2147483647 + 0 + 1) mod 10) = 56. -/
theorem mk_kvpairs_value_bytes_counterexample :
    ∃ b val byte, mk_kvpairs (Heap.of_blocks 5) 0 1 2147483647 2 = some b ∧
      b.vals[0]? = some val ∧
      val[1]? = some byte ∧ byte = 40 ∧
      byte ≠ '0'.toNat + (2147483647 + 0 + 1) % 10 :=
  ⟨⟨["2147483647"], [[55, 40]], [2]⟩, [55, 40], 40, by decide, by decide, by decide,
    by decide, by decide⟩

/-! ## C5: a pair depends on its global index only -/

theorem value_loop_congr (s1 i1 s2 i2 : Int) (h : s1 + i1 = s2 + i2) :
    ∀ (r : Nat) (k : Int), value_loop s1 i1 r k = value_loop s2 i2 r k := by
  intro r
  induction r with
  | zero => intro k; rfl
  | succ r ih => intro k; simp [value_loop, value_byte, h, ih]

/-- C5: the pair generated for a global index depends only on that index and on
valueSize. If `mk_kvpairs(c1, s1, v)` and `mk_kvpairs(c2, s2, v)` return batches,
j1 < c1, j2 < c2 and s1 + j1 = s2 + j2, then the j1-th pair of the first batch
exists and has the same key, value bytes and length as the j2-th pair of the
second; and two calls with equal arguments that return, return the same batch,
whatever the allocator answered. -/
theorem mk_kvpairs_index_determined (heap1 heap2 : Heap) (k1 k2 : Nat)
    (c1 s1 c2 s2 v : Int) (b1 b2 : KVPairs) (j1 j2 : Nat)
    (h1 : mk_kvpairs heap1 k1 c1 s1 v = some b1)
    (h2 : mk_kvpairs heap2 k2 c2 s2 v = some b2)
    (hj1 : (j1 : Int) < c1) (hj2 : (j2 : Int) < c2) (hidx : s1 + j1 = s2 + j2) :
    (∃ key val len, b1.keys[j1]? = some key ∧ b1.vals[j1]? = some val ∧
        b1.lens[j1]? = some len ∧ b2.keys[j2]? = some key ∧ b2.vals[j2]? = some val ∧
        b2.lens[j2]? = some len) ∧
      (∀ (heap : Heap) (k : Nat) (b : KVPairs),
        mk_kvpairs heap k c1 s1 v = some b → b = b1) := by
  refine ⟨?_, fun heap k b hb => by
    rw [mk_kvpairs_some heap k c1 s1 v b hb, mk_kvpairs_some heap1 k1 c1 s1 v b1 h1]⟩
  rw [mk_kvpairs_some heap1 k1 c1 s1 v b1 h1, mk_kvpairs_some heap2 k2 c2 s2 v b2 h2]
  obtain ⟨e1, v1, l1⟩ := kvpairs_filled_get s1 v c1.toNat 0 j1 (by omega)
  obtain ⟨e2, v2, l2⟩ := kvpairs_filled_get s2 v c2.toNat 0 j2 (by omega)
  have e : s1 + (0 + (j1 : Int)) = s2 + (0 + (j2 : Int)) := by omega
  refine ⟨_, _, _, e1, v1, l1, ?_, ?_, l2⟩
  · rw [e2, e]
  · rw [v2, value_loop_congr s1 (0 + j1) s2 (0 + j2) e]

/-- Witness of C5: index 11 is pair 2 of the batch starting at 9 and pair 1 of
the batch starting at 10. -/
theorem mk_kvpairs_index_determined_witness :
    (∃ key val len,
        (⟨["00000009", "00000010", "00000011"], [[57, 48], [48, 49], [49, 50]],
          [2, 2, 2]⟩ : KVPairs).keys[2]? = some key ∧
        (⟨["00000009", "00000010", "00000011"], [[57, 48], [48, 49], [49, 50]],
          [2, 2, 2]⟩ : KVPairs).vals[2]? = some val ∧
        (⟨["00000009", "00000010", "00000011"], [[57, 48], [48, 49], [49, 50]],
          [2, 2, 2]⟩ : KVPairs).lens[2]? = some len ∧
        (⟨["00000010", "00000011"], [[48, 49], [49, 50]], [2, 2]⟩ : KVPairs).keys[1]?
          = some key ∧
        (⟨["00000010", "00000011"], [[48, 49], [49, 50]], [2, 2]⟩ : KVPairs).vals[1]?
          = some val ∧
        (⟨["00000010", "00000011"], [[48, 49], [49, 50]], [2, 2]⟩ : KVPairs).lens[1]?
          = some len) ∧
      (∀ (heap : Heap) (k : Nat) (b : KVPairs), mk_kvpairs heap k 3 9 2 = some b →
        b = ⟨["00000009", "00000010", "00000011"], [[57, 48], [48, 49], [49, 50]],
          [2, 2, 2]⟩) :=
  mk_kvpairs_index_determined (Heap.of_blocks 9) (Heap.of_blocks 16) 0 9 3 9 2 10 2 _ _ 2 1
    (by decide) (by decide) (by decide) (by decide) (by decide)

/-! ## Decimal digits -/

theorem digitChar_lt_ten (m : Nat) (h : m < 10) :
    (Nat.digitChar m).isDigit = true ∧ (Nat.digitChar m).toNat - '0'.toNat = m := by
  interval_cases m <;> decide

theorem isDigit_bounds (c : Char) (h : c.isDigit = true) : 48 ≤ c.toNat ∧ c.toNat ≤ 57 := by
  simp [Char.isDigit] at h
  exact h

theorem toDigitsCore_append (fuel : Nat) : ∀ (n : Nat) (ds : List Char),
    Nat.toDigitsCore 10 fuel n ds = Nat.toDigitsCore 10 fuel n [] ++ ds := by
  induction fuel with
  | zero => intro n ds; simp [Nat.toDigitsCore]
  | succ f ih =>
    intro n ds
    simp only [Nat.toDigitsCore]
    split
    · simp
    · rw [ih (n / 10) (_ :: ds), ih (n / 10) [_]]; simp

theorem digits_value_append (l : List Char) (c : Char) :
    digits_value (l ++ [c]) = digits_value l * 10 + (c.toNat - '0'.toNat) := by
  simp [digits_value, List.foldl_append]

theorem toDigitsCore_spec (fuel : Nat) : ∀ n : Nat, n < fuel →
    (∀ c ∈ Nat.toDigitsCore 10 fuel n [], c.isDigit = true) ∧
    digits_value (Nat.toDigitsCore 10 fuel n []) = n := by
  induction fuel with
  | zero => intro n h; omega
  | succ f ih =>
    intro n hn
    have hd := digitChar_lt_ten (n % 10) (Nat.mod_lt _ (by decide))
    simp only [Nat.toDigitsCore]
    split
    · refine ⟨by simpa using hd.1, ?_⟩
      have e : digits_value [Nat.digitChar (n % 10)]
          = (Nat.digitChar (n % 10)).toNat - '0'.toNat := by
        simp [digits_value]
      rw [e, hd.2]; omega
    · rw [toDigitsCore_append]
      obtain ⟨h1, h2⟩ := ih (n / 10) (by omega)
      refine ⟨?_, ?_⟩
      · intro c hc
        rcases List.mem_append.1 hc with h | h
        · exact h1 c h
        · simp at h; rw [h]; exact hd.1
      · rw [digits_value_append, h2, hd.2]; omega

theorem toDigits_spec (n : Nat) :
    (∀ c ∈ Nat.toDigits 10 n, c.isDigit = true) ∧ digits_value (Nat.toDigits 10 n) = n := by
  unfold Nat.toDigits
  exact toDigitsCore_spec (n + 1) n (Nat.lt_succ_self n)

theorem toDigits_length_le (n e : Nat) (he : 0 < e) (h : n < 10 ^ e) :
    (Nat.toDigits 10 n).length ≤ e := by
  unfold Nat.toDigits
  exact Nat.toDigitsCore_length 10 (by decide) (n + 1) n e h he

theorem digits_value_cons_aux (l : List Char) : ∀ a : Nat,
    l.foldl (fun n c => n * 10 + (c.toNat - '0'.toNat)) a
      = a * 10 ^ l.length + digits_value l := by
  induction l with
  | nil => intro a; simp [digits_value]
  | cons c t ih =>
    intro a
    have h1 := ih (a * 10 + (c.toNat - '0'.toNat))
    have h2 := ih (0 * 10 + (c.toNat - '0'.toNat))
    simp only [digits_value, List.foldl_cons, List.length_cons] at h1 h2 ⊢
    rw [h1, h2, pow_succ]
    ring

theorem digits_value_cons (c : Char) (t : List Char) :
    digits_value (c :: t) = (c.toNat - '0'.toNat) * 10 ^ t.length + digits_value t := by
  have h := digits_value_cons_aux t (0 * 10 + (c.toNat - '0'.toNat))
  simp only [digits_value, List.foldl_cons] at h ⊢
  rw [h]
  simp

theorem digits_value_lt (l : List Char) (hd : ∀ c ∈ l, c.isDigit = true) :
    digits_value l < 10 ^ l.length := by
  induction l with
  | nil => simp [digits_value]
  | cons c t ih =>
    have ht := ih (fun x hx => hd x (List.mem_cons_of_mem c hx))
    have hc := isDigit_bounds c (hd c (List.mem_cons_self c t))
    have h0 : ('0'.toNat : Nat) = 48 := by decide
    rw [digits_value_cons, List.length_cons, pow_succ, h0]
    have hle : (c.toNat - 48) * 10 ^ t.length ≤ 9 * 10 ^ t.length :=
      Nat.mul_le_mul_right _ (by omega)
    omega

theorem digits_value_zero_pad (w : Nat) (l : List Char) :
    digits_value (zero_pad w l) = digits_value l := by
  unfold zero_pad
  generalize w - l.length = m
  induction m with
  | zero => simp
  | succ m ih =>
    rw [List.replicate_succ, List.cons_append, digits_value_cons, ih]
    simp

/-- Strings of digits of one length are ordered like the numbers they denote. -/
theorem digits_lt_of_value_lt : ∀ (l1 l2 : List Char), l1.length = l2.length →
    (∀ c ∈ l1, c.isDigit = true) → (∀ c ∈ l2, c.isDigit = true) →
    digits_value l1 < digits_value l2 → List.lt l1 l2 := by
  intro l1
  induction l1 with
  | nil =>
    intro l2 hlen _ _ hv
    cases l2 with
    | nil => simp [digits_value] at hv
    | cons c t => simp at hlen
  | cons c1 t1 ih =>
    intro l2 hlen hd1 hd2 hv
    cases l2 with
    | nil => simp at hlen
    | cons c2 t2 =>
      have hlen' : t1.length = t2.length := by simpa using hlen
      have hb1 := isDigit_bounds c1 (hd1 c1 (List.mem_cons_self c1 t1))
      have hb2 := isDigit_bounds c2 (hd2 c2 (List.mem_cons_self c2 t2))
      have ht1 : ∀ c ∈ t1, c.isDigit = true := fun x hx => hd1 x (List.mem_cons_of_mem c1 hx)
      have ht2 : ∀ c ∈ t2, c.isDigit = true := fun x hx => hd2 x (List.mem_cons_of_mem c2 hx)
      have hv1 := digits_value_lt t1 ht1
      have hv2 := digits_value_lt t2 ht2
      have h0 : ('0'.toNat : Nat) = 48 := by decide
      rw [digits_value_cons, digits_value_cons, h0, hlen'] at hv
      rw [hlen'] at hv1
      rcases Nat.lt_trichotomy c1.toNat c2.toNat with hlt | heq | hgt
      · exact List.lt.head t1 t2 hlt
      · have hc : c1 = c2 := Char.ext (UInt32.ext heq)
        subst hc
        have hv' : digits_value t1 < digits_value t2 := by omega
        exact List.lt.tail (Nat.lt_irrefl _) (Nat.lt_irrefl _) (ih t2 hlen' ht1 ht2 hv')
      · exfalso
        have hle : (c2.toNat - 48 + 1) * 10 ^ t2.length ≤ (c1.toNat - 48) * 10 ^ t2.length :=
          Nat.mul_le_mul_right _ (by omega)
        rw [Nat.add_mul] at hle
        omega

/-! ## Keys -/

theorem sprintf_08d_data (x : Int) (h : 0 ≤ x) :
    (sprintf_08d x).data = zero_pad 8 (Nat.toDigits 10 x.toNat) := by
  unfold sprintf_08d
  rw [if_neg (by omega)]

theorem sprintf_08d_digits (x : Int) (h : 0 ≤ x) :
    ∀ c ∈ (sprintf_08d x).data, c.isDigit = true := by
  rw [sprintf_08d_data x h]
  intro c hc
  unfold zero_pad at hc
  rcases List.mem_append.1 hc with h1 | h1
  · rw [(List.mem_replicate.1 h1).2]; decide
  · exact (toDigits_spec x.toNat).1 c h1

theorem sprintf_08d_value (x : Int) (h : 0 ≤ x) :
    digits_value (sprintf_08d x).data = x.toNat := by
  rw [sprintf_08d_data x h, digits_value_zero_pad]
  exact (toDigits_spec x.toNat).2

theorem sprintf_08d_length_eq (x : Int) (hx : 0 ≤ x) (e : Nat) (he : 8 ≤ e)
    (h1 : x.toNat < 10 ^ e) (h2 : e = 8 ∨ 10 ^ (e - 1) ≤ x.toNat) :
    (sprintf_08d x).data.length = e := by
  have hv := sprintf_08d_value x hx
  have hlt := digits_value_lt _ (sprintf_08d_digits x hx)
  rw [hv] at hlt
  have hle := toDigits_length_le x.toNat e (by omega) h1
  have hlen : (sprintf_08d x).data.length
      = (8 - (Nat.toDigits 10 x.toNat).length) + (Nat.toDigits 10 x.toNat).length := by
    rw [sprintf_08d_data x hx]
    simp [zero_pad]
  rcases h2 with h2 | h2
  · omega
  · have h3 : 10 ^ (e - 1) < 10 ^ (sprintf_08d x).data.length := lt_of_le_of_lt h2 hlt
    have h4 : e - 1 < (sprintf_08d x).data.length :=
      (Nat.pow_lt_pow_iff_right (by decide)).1 h3
    omega

theorem mk_kvpairs_key_get (heap : Heap) (k0 : Nat) (count s v : Int) (b : KVPairs)
    (j : Nat) (hb : mk_kvpairs heap k0 count s v = some b) (hj : (j : Int) < count)
    (h0 : 0 ≤ s + j) (h1 : s + j ≤ 2147483647) :
    b.keys[j]? = some (sprintf_08d (s + j)) := by
  rw [mk_kvpairs_some heap k0 count s v b hb,
    (kvpairs_filled_get s v count.toNat 0 j (by omega)).1]
  rw [wrap32_of_range (s + (0 + (j : Int))) (by omega) (by omega)]
  simp

/-! ## C3: form of the keys -/

/-- C3 (as amended): in a batch returned by `mk_kvpairs` with startingIndex ≥ 0,
for every j < count with startingIndex + j ≤ INT_MAX the key of the j-th pair
consists only of decimal digits, denotes the number startingIndex + j, and is
the decimal representation of startingIndex + j left-padded with zeros to a
width of at least 8; it is exactly 8 characters long if and only if
startingIndex + j ≤ 99999999, and longer otherwise. -/
theorem mk_kvpairs_key_form (heap : Heap) (k0 : Nat)
    (count startingIndex valueSize : Int) (b : KVPairs) (j : Nat)
    (hb : mk_kvpairs heap k0 count startingIndex valueSize = some b)
    (hs : 0 ≤ startingIndex) (hj : (j : Int) < count)
    (hmax : startingIndex + j ≤ INT_MAX) :
    ∃ key, b.keys[j]? = some key ∧
      (∀ c ∈ key.data, c.isDigit = true) ∧
      digits_value key.data = (startingIndex + j).toNat ∧
      key.data = List.replicate (8 - (Nat.repr (startingIndex + j).toNat).length) '0'
        ++ (Nat.repr (startingIndex + j).toNat).data ∧
      8 ≤ key.length ∧
      (key.length = 8 ↔ startingIndex + j ≤ 99999999) := by
  simp only [INT_MAX] at hmax
  have h0 : 0 ≤ startingIndex + j := by omega
  refine ⟨_, mk_kvpairs_key_get heap k0 count startingIndex valueSize b j hb hj h0 hmax,
    sprintf_08d_digits _ h0, sprintf_08d_value _ h0, ?_, ?_, ?_⟩
  · rw [sprintf_08d_data _ h0]
    rfl
  · show 8 ≤ (sprintf_08d (startingIndex + j)).data.length
    rw [sprintf_08d_data _ h0]
    simp only [zero_pad, List.length_append, List.length_replicate]
    omega
  · show (sprintf_08d (startingIndex + j)).data.length = 8 ↔ _
    have hn : (((startingIndex + j).toNat : Nat) : Int) = startingIndex + j :=
      Int.toNat_of_nonneg h0
    constructor
    · intro hlen
      have hlt := digits_value_lt _ (sprintf_08d_digits (startingIndex + j) h0)
      rw [sprintf_08d_value _ h0, hlen] at hlt
      omega
    · intro hle
      exact sprintf_08d_length_eq _ h0 8 (le_refl 8) (by omega) (Or.inl rfl)

/-- Witness of C3: the key of pair 2 of the batch starting at 9. -/
theorem mk_kvpairs_key_form_witness :
    ∃ key, (⟨["00000009", "00000010", "00000011"], [[57, 48], [48, 49], [49, 50]],
        [2, 2, 2]⟩ : KVPairs).keys[2]? = some key ∧
      (∀ c ∈ key.data, c.isDigit = true) ∧
      digits_value key.data = ((9 : Int) + (2 : Nat)).toNat ∧
      key.data = List.replicate (8 - (Nat.repr ((9 : Int) + (2 : Nat)).toNat).length) '0'
        ++ (Nat.repr ((9 : Int) + (2 : Nat)).toNat).data ∧
      8 ≤ key.length ∧
      (key.length = 8 ↔ (9 : Int) + (2 : Nat) ≤ 99999999) :=
  mk_kvpairs_key_form (Heap.of_blocks 9) 0 3 9 2 _ 2 (by decide) (by decide) (by decide) (by decide)

/-- C3 as stated fails: for count = 1 and startingIndex = 100000000 the key of
pair 0 is "100000000", which is 9 characters long, not 8. -/
theorem mk_kvpairs_key_form_counterexample :
    ∃ b key, mk_kvpairs (Heap.of_blocks 5) 0 1 100000000 2 = some b ∧ b.keys[0]? = some key ∧
      key = "100000000" ∧ key.length ≠ 8 :=
  ⟨⟨["100000000"], [[48, 49]], [2]⟩, "100000000", by decide, by decide, rfl, by decide⟩

/-! ## C4: order of the keys of a batch -/

/-- C4 (as amended): in a batch returned by `mk_kvpairs` with startingIndex ≥ 0,
for every j with j + 1 < count, key j is strictly below key j+1 as a string,
provided startingIndex + j + 1 ≤ INT_MAX and startingIndex + j + 1 is neither
100000000 nor 1000000000 (the two indices at which the key gets one digit
longer). -/
theorem mk_kvpairs_keys_increasing (heap : Heap) (k0 : Nat)
    (count startingIndex valueSize : Int) (b : KVPairs)
    (j : Nat) (hb : mk_kvpairs heap k0 count startingIndex valueSize = some b)
    (hs : 0 ≤ startingIndex) (hj : (j : Int) + 1 < count)
    (hmax : startingIndex + j + 1 ≤ INT_MAX)
    (h8 : startingIndex + j + 1 ≠ 100000000) (h9 : startingIndex + j + 1 ≠ 1000000000) :
    ∃ key1 key2, b.keys[j]? = some key1 ∧ b.keys[j + 1]? = some key2 ∧ key1 < key2 := by
  simp only [INT_MAX] at hmax
  have h0 : 0 ≤ startingIndex + j := by omega
  have h0' : 0 ≤ startingIndex + j + 1 := by omega
  have g1 := mk_kvpairs_key_get heap k0 count startingIndex valueSize b j hb (by omega) h0
    (by omega)
  have g2 := mk_kvpairs_key_get heap k0 count startingIndex valueSize b (j + 1) hb
    (by push_cast; omega) (by push_cast; omega) (by push_cast; omega)
  have e2 : startingIndex + ((j + 1 : Nat) : Int) = startingIndex + j + 1 := by
    push_cast; ring
  rw [e2] at g2
  refine ⟨_, _, g1, g2, ?_⟩
  rw [String.lt_iff_toList_lt]
  apply (List.lt_iff_lex_lt _ _).1
  have hn1 : (((startingIndex + j).toNat : Nat) : Int) = startingIndex + j :=
    Int.toNat_of_nonneg h0
  have hn2 : (((startingIndex + j + 1).toNat : Nat) : Int) = startingIndex + j + 1 :=
    Int.toNat_of_nonneg h0'
  have hlen : (sprintf_08d (startingIndex + j)).data.length
      = (sprintf_08d (startingIndex + j + 1)).data.length := by
    by_cases c8 : startingIndex + j + 1 < 100000000
    · rw [sprintf_08d_length_eq _ h0 8 (le_refl 8) (by omega) (Or.inl rfl),
        sprintf_08d_length_eq _ h0' 8 (le_refl 8) (by omega) (Or.inl rfl)]
    · by_cases c9 : startingIndex + j + 1 < 1000000000
      · rw [sprintf_08d_length_eq _ h0 9 (by decide) (by omega) (Or.inr (by omega)),
          sprintf_08d_length_eq _ h0' 9 (by decide) (by omega) (Or.inr (by omega))]
      · rw [sprintf_08d_length_eq _ h0 10 (by decide) (by omega) (Or.inr (by omega)),
          sprintf_08d_length_eq _ h0' 10 (by decide) (by omega) (Or.inr (by omega))]
  apply digits_lt_of_value_lt (sprintf_08d (startingIndex + j)).data
    (sprintf_08d (startingIndex + j + 1)).data hlen (sprintf_08d_digits _ h0)
    (sprintf_08d_digits _ h0')
  rw [sprintf_08d_value _ h0, sprintf_08d_value _ h0']
  omega

/-- Witness of C4: keys 1 and 2 of the batch starting at 9. -/
theorem mk_kvpairs_keys_increasing_witness :
    ∃ key1 key2,
      (⟨["00000009", "00000010", "00000011"], [[57, 48], [48, 49], [49, 50]],
        [2, 2, 2]⟩ : KVPairs).keys[1]? = some key1 ∧
      (⟨["00000009", "00000010", "00000011"], [[57, 48], [48, 49], [49, 50]],
        [2, 2, 2]⟩ : KVPairs).keys[1 + 1]? = some key2 ∧ key1 < key2 :=
  mk_kvpairs_keys_increasing (Heap.of_blocks 9) 0 3 9 2 _ 1 (by decide) (by decide)
    (by decide) (by decide)
    (by decide) (by decide)

/-- C4 as stated fails: for count = 2 and startingIndex = 99999999 the keys are
"99999999" and "100000000", and the first is not below the second as a string. -/
theorem mk_kvpairs_keys_increasing_counterexample :
    ∃ b key1 key2, mk_kvpairs (Heap.of_blocks 7) 0 2 99999999 2 = some b ∧
      b.keys[0]? = some key1 ∧
      b.keys[1]? = some key2 ∧ ¬ key1 < key2 :=
  ⟨⟨["99999999", "100000000"], [[57, 48], [48, 49]], [2, 2]⟩, "99999999", "100000000",
    by decide, by decide, by decide, by rw [String.lt_iff_toList_lt]; decide⟩

/-! ## The write loop: one iteration -/

theorem wrap64_of_range (x : Int) (h0 : -9223372036854775808 ≤ x)
    (h1 : x ≤ 9223372036854775807) : wrap64 x = x := by
  unfold wrap64; omega

/-- The value of `delta` for two clock readings, without the reductions to 64
bits, none of which changes anything. -/
theorem elapsed_of_clock_times (t0 tf : timespec) (h0 : is_clock_time t0)
    (hf : is_clock_time tf) :
    elapsed t0 tf =
      if tf.tv_nsec < t0.tv_nsec then
        ⟨tf.tv_sec - t0.tv_sec - 1, tf.tv_nsec - t0.tv_nsec + 1000000000⟩
      else ⟨tf.tv_sec - t0.tv_sec, tf.tv_nsec - t0.tv_nsec⟩ := by
  obtain ⟨a1, a2, a3, a4⟩ := h0
  obtain ⟨b1, b2, b3, b4⟩ := hf
  unfold elapsed
  simp only []
  rw [wrap64_of_range (tf.tv_sec - t0.tv_sec) (by omega) (by omega),
    wrap64_of_range (tf.tv_nsec - t0.tv_nsec) (by omega) (by omega),
    wrap64_of_range (tf.tv_sec - t0.tv_sec - 1) (by omega) (by omega),
    wrap64_of_range (tf.tv_nsec - t0.tv_nsec + 1000000000) (by omega) (by omega)]

/-- C9: the borrow is exact. For every start and end timestamp that the clock can
give (seconds since the Epoch in a 64-bit `time_t`, nanoseconds in
[0, 1000000000)), the delta (ds, dn) computed in `main` has dn in
[0, 1000000000) and ds * 1000000000 + dn = (s1 * 1000000000 + n1) -
(s0 * 1000000000 + n0); start = (10, 500000000), end = (11, 200000000) gives
(0, 700000000). -/
theorem elapsed_exact (t0 tf : timespec) (h0 : is_clock_time t0) (hf : is_clock_time tf) :
    0 ≤ (elapsed t0 tf).tv_nsec ∧ (elapsed t0 tf).tv_nsec < 1000000000 ∧
    (elapsed t0 tf).tv_sec * 1000000000 + (elapsed t0 tf).tv_nsec
      = (tf.tv_sec * 1000000000 + tf.tv_nsec) - (t0.tv_sec * 1000000000 + t0.tv_nsec) ∧
    elapsed ⟨10, 500000000⟩ ⟨11, 200000000⟩ = ⟨0, 700000000⟩ := by
  rw [elapsed_of_clock_times t0 tf h0 hf]
  obtain ⟨a1, a2, a3, a4⟩ := h0
  obtain ⟨b1, b2, b3, b4⟩ := hf
  refine ⟨?_, ?_, ?_, by decide⟩ <;> split <;> simp only [] <;> omega

/-- Witness of C9: start = (10, 500000000), end = (11, 200000000). -/
theorem elapsed_exact_witness :
    0 ≤ (elapsed ⟨10, 500000000⟩ ⟨11, 200000000⟩).tv_nsec ∧
    (elapsed ⟨10, 500000000⟩ ⟨11, 200000000⟩).tv_nsec < 1000000000 ∧
    (elapsed ⟨10, 500000000⟩ ⟨11, 200000000⟩).tv_sec * 1000000000
        + (elapsed ⟨10, 500000000⟩ ⟨11, 200000000⟩).tv_nsec
      = ((⟨11, 200000000⟩ : timespec).tv_sec * 1000000000
          + (⟨11, 200000000⟩ : timespec).tv_nsec)
        - ((⟨10, 500000000⟩ : timespec).tv_sec * 1000000000
          + (⟨10, 500000000⟩ : timespec).tv_nsec) ∧
    elapsed ⟨10, 500000000⟩ ⟨11, 200000000⟩ = ⟨0, 700000000⟩ :=
  elapsed_exact ⟨10, 500000000⟩ ⟨11, 200000000⟩ (by decide) (by decide)

/-- C10 (as amended): for every start and end timestamp read from the clock, the
nanosecond remainder of the computed delta is ≥ 0, and its seconds are ≥ 0 if
and only if the end timestamp is not earlier than the start timestamp. -/
theorem elapsed_nonneg (t0 tf : timespec) (h0 : is_clock_time t0) (hf : is_clock_time tf) :
    0 ≤ (elapsed t0 tf).tv_nsec ∧
    (0 ≤ (elapsed t0 tf).tv_sec ↔ t0.nanos ≤ tf.nanos) := by
  rw [elapsed_of_clock_times t0 tf h0 hf]
  obtain ⟨a1, a2, a3, a4⟩ := h0
  obtain ⟨b1, b2, b3, b4⟩ := hf
  unfold timespec.nanos
  refine ⟨?_, ?_⟩ <;> split <;> simp only [] <;> omega

/-- Witness of C10: start = (10, 500000000), end = (11, 200000000). -/
theorem elapsed_nonneg_witness :
    0 ≤ (elapsed ⟨10, 500000000⟩ ⟨11, 200000000⟩).tv_nsec ∧
    (0 ≤ (elapsed ⟨10, 500000000⟩ ⟨11, 200000000⟩).tv_sec ↔
      (⟨10, 500000000⟩ : timespec).nanos ≤ (⟨11, 200000000⟩ : timespec).nanos) :=
  elapsed_nonneg ⟨10, 500000000⟩ ⟨11, 200000000⟩ (by decide) (by decide)

/-- C10 as stated fails: `CLOCK_REALTIME` can be set back during the run; for
the readings start = (11, 0) and end = (10, 0) the computed delta is (-1, 0),
whose seconds are negative. -/
theorem elapsed_nonneg_counterexample :
    is_clock_time ⟨11, 0⟩ ∧ is_clock_time ⟨10, 0⟩ ∧
    elapsed ⟨11, 0⟩ ⟨10, 0⟩ = ⟨-1, 0⟩ ∧ (elapsed ⟨11, 0⟩ ⟨10, 0⟩).tv_sec < 0 := by
  decide

/-! ## The command line: one pair of arguments -/

theorem flag_of_name (a name : String) (h1 : has_dashes a = true)
    (h2 : String.mk (a.data.drop 2) = name) : a = String.mk ('-' :: '-' :: name.data) := by
  have h3 : a.data.take 2 = ['-', '-'] := by simpa [has_dashes] using h1
  have h4 : a.data.drop 2 = name.data := by rw [← h2]
  have h5 : a.data = '-' :: '-' :: name.data := by
    rw [← List.take_append_drop 2 a.data, h3, h4]
    rfl
  rw [← h5]

/-- The `operation` branch of the loop never accepts: whatever the value, the
run leaves with "invalid operation type". -/
theorem parse_loop_operation (x : String) (rest : List String) (cfg : Config) :
    parse_loop ("--operation" :: x :: rest) cfg
      = Except.error Failure.invalid_operation_type := by
  rfl

/-- What a successful run of the loop over a first pair of arguments has done. -/
theorem parse_loop_pair_ok (a b : String) (rest : List String) (cfg out : Config)
    (h : parse_loop (a :: b :: rest) cfg = Except.ok out) :
    (a = "--total-kvpairs" ∧ ∃ r, parse_int b int_parse_type.non_negative = Except.ok r ∧
        parse_loop rest { cfg with total_kvpairs := r } = Except.ok out) ∨
    (a = "--kvpairs-per-call" ∧ ∃ r, parse_int b int_parse_type.positive = Except.ok r ∧
        parse_loop rest { cfg with kvpairs_per_call := r } = Except.ok out) ∨
    (a = "--value-size" ∧ ∃ r, parse_int b int_parse_type.non_negative = Except.ok r ∧
        parse_loop rest { cfg with value_size := r } = Except.ok out) := by
  unfold parse_loop at h
  by_cases hd : has_dashes a = false
  · rw [if_pos hd] at h
    exact absurd h (by simp)
  · rw [if_neg hd] at h
    have hd' : has_dashes a = true := by simpa using hd
    simp only [] at h
    by_cases h1 : String.mk (a.data.drop 2) = "total-kvpairs"
    · rw [if_pos h1] at h
      left
      refine ⟨flag_of_name a _ hd' h1, ?_⟩
      cases hp : parse_int b int_parse_type.non_negative with
      | error e => rw [hp] at h; exact absurd h (by simp)
      | ok r => rw [hp] at h; exact ⟨r, rfl, h⟩
    · rw [if_neg h1] at h
      by_cases h2 : String.mk (a.data.drop 2) = "kvpairs-per-call"
      · rw [if_pos h2] at h
        right; left
        refine ⟨flag_of_name a _ hd' h2, ?_⟩
        cases hp : parse_int b int_parse_type.positive with
        | error e => rw [hp] at h; exact absurd h (by simp)
        | ok r => rw [hp] at h; exact ⟨r, rfl, h⟩
      · rw [if_neg h2] at h
        by_cases h3 : String.mk (a.data.drop 2) = "value-size"
        · rw [if_pos h3] at h
          right; right
          refine ⟨flag_of_name a _ hd' h3, ?_⟩
          cases hp : parse_int b int_parse_type.non_negative with
          | error e => rw [hp] at h; exact absurd h (by simp)
          | ok r => rw [hp] at h; exact ⟨r, rfl, h⟩
        · rw [if_neg h3] at h
          by_cases h4 : String.mk (a.data.drop 2) = "operation"
          · rw [if_pos h4, h4, if_neg (by decide), if_neg (by decide)] at h
            exact absurd h (by simp)
          · rw [if_neg h4] at h
            exact absurd h (by simp)

/-- A run of the loop over a first pair either leaves the program or goes on
with the rest of the arguments. -/
theorem parse_loop_pair (a b : String) (rest : List String) (cfg : Config) :
    (∃ e, parse_loop (a :: b :: rest) cfg = Except.error e) ∨
    (∃ cfg', parse_loop (a :: b :: rest) cfg = parse_loop rest cfg') := by
  cases hp : parse_loop (a :: b :: rest) cfg with
  | error e => exact Or.inl ⟨e, rfl⟩
  | ok out =>
    right
    rcases parse_loop_pair_ok a b rest cfg out hp with ⟨_, r, _, h⟩ | ⟨_, r, _, h⟩ | ⟨_, r, _, h⟩
    · exact ⟨_, h.symm⟩
    · exact ⟨_, h.symm⟩
    · exact ⟨_, h.symm⟩

theorem parse_loop_skip (rest : List String)
    (hrest : ∀ cfg, ∃ e, parse_loop rest cfg = Except.error e) :
    ∀ (n : Nat) (pre : List String), pre.length = 2 * n →
      ∀ cfg, ∃ e, parse_loop (pre ++ rest) cfg = Except.error e := by
  intro n
  induction n with
  | zero =>
    intro pre hlen cfg
    have : pre = [] := List.length_eq_zero.1 (by omega)
    rw [this]
    exact hrest cfg
  | succ n ih =>
    intro pre hlen cfg
    match pre, hlen with
    | a :: b :: pre', hlen =>
      have hlen' : pre'.length = 2 * n := by simp at hlen; omega
      rcases parse_loop_pair a b (pre' ++ rest) cfg with h | ⟨cfg', h⟩
      · exact h
      · obtain ⟨e, he⟩ := ih pre' hlen' cfg'
        exact ⟨e, by rw [List.cons_append, List.cons_append, h, he]⟩
    | [_], hlen => simp at hlen; omega
    | [], hlen => simp at hlen

/-- The text `--operation` is never accepted as a value. -/
theorem parse_loop_operation_as_value (f : String) (post : List String) (cfg : Config) :
    ∃ e, parse_loop (f :: "--operation" :: post) cfg = Except.error e := by
  cases hp : parse_loop (f :: "--operation" :: post) cfg with
  | error e => exact ⟨e, rfl⟩
  | ok out =>
    exfalso
    have e1 : parse_int "--operation" int_parse_type.non_negative
        = Except.error Failure.not_an_integer := by decide
    have e2 : parse_int "--operation" int_parse_type.positive
        = Except.error Failure.not_an_integer := by decide
    rcases parse_loop_pair_ok f _ post cfg out hp with ⟨_, r, h, _⟩ | ⟨_, r, h, _⟩ | ⟨_, r, h, _⟩
    · rw [e1] at h; cases h
    · rw [e2] at h; cases h
    · rw [e1] at h; cases h

/-- Every command line that holds `--operation` leaves the program while the
arguments are read. -/
theorem parse_loop_with_operation (pre post : List String) (x : String) (cfg : Config) :
    ∃ e, parse_loop (pre ++ "--operation" :: x :: post) cfg = Except.error e := by
  rcases Nat.even_or_odd' pre.length with ⟨n, hn | hn⟩
  · exact parse_loop_skip _ (fun c => ⟨_, parse_loop_operation x post c⟩) n pre hn cfg
  · have hne : pre ≠ [] := by
      intro h; rw [h] at hn; simp at hn
    have hsplit := List.dropLast_append_getLast hne
    rw [← hsplit, List.append_assoc]
    have hlen : pre.dropLast.length = 2 * n := by
      rw [List.length_dropLast]; omega
    exact parse_loop_skip _
      (fun c => parse_loop_operation_as_value (pre.getLast hne) (x :: post) c) n
      pre.dropLast hlen cfg

theorem main_of_parse_error (env : Env) (args : List String) (fuel : Nat) (e : Failure)
    (h : parse_command_line args = Except.error e) :
    main env args fuel = ⟨none, [], [], [], ProcessEnd.exited EXIT_FAILURE e⟩ := by
  unfold main
  rw [h]
  rfl

/-! ## C11, C12, C13: the `--operation` flag -/

/-- C11, the code at the failing input: the command line `--operation write` is
not accepted. The comparison is made on the name of the parameter instead of
its value, the run leaves with "invalid operation type" and the status
`EXIT_FAILURE`, and no operation type is selected. -/
theorem operation_write_rejected :
    parse_command_line ["--operation", "write"]
      = Except.error Failure.invalid_operation_type ∧
    (main Env.all_ok ["--operation", "write"] 11).config = none ∧
    (main Env.all_ok ["--operation", "write"] 11).ending
      = ProcessEnd.exited EXIT_FAILURE Failure.invalid_operation_type ∧
    parse_command_line ["--kvpairs-per-call", "3", "--operation", "write"]
      = Except.error Failure.invalid_operation_type := by
  decide

/-- C12: every argument list that holds the flag `--operation` followed by the
value `read` ends the run while the command line is parsed, with the non-zero
status `EXIT_FAILURE`, before any handle is created and before any batch is
generated or submitted, whatever the other arguments and whatever the world
outside answers. -/
theorem operation_read_rejected (env : Env) (pre post : List String) (fuel : Nat) :
    (∃ e, parse_command_line (pre ++ "--operation" :: "read" :: post) = Except.error e) ∧
    (∃ e, (main env (pre ++ "--operation" :: "read" :: post) fuel).ending
      = ProcessEnd.exited EXIT_FAILURE e) ∧
    EXIT_FAILURE ≠ 0 ∧
    (main env (pre ++ "--operation" :: "read" :: post) fuel).calls = [] ∧
    (main env (pre ++ "--operation" :: "read" :: post) fuel).generated = [] ∧
    (main env (pre ++ "--operation" :: "read" :: post) fuel).submitted = [] := by
  obtain ⟨e, he⟩ := parse_loop_with_operation pre post "read" Config.initial
  have hm := main_of_parse_error env _ fuel e he
  refine ⟨⟨e, he⟩, ⟨e, ?_⟩, by decide, ?_, ?_, ?_⟩ <;> rw [hm]

/-- C13, the code at the failing input: the command line `--operation read`
leaves with "invalid operation type", the same message as for any other value,
and not with "read not yet supported". -/
theorem operation_read_message :
    parse_command_line ["--operation", "read"]
      = Except.error Failure.invalid_operation_type ∧
    parse_command_line ["--operation", "read"]
      ≠ Except.error Failure.read_not_yet_supported ∧
    parse_command_line ["--operation", "bogus"]
      = Except.error Failure.invalid_operation_type ∧
    (main Env.all_ok ["--operation", "read"] 11).ending
      = ProcessEnd.exited EXIT_FAILURE Failure.invalid_operation_type := by
  decide

/-! ## C14: the configuration that parsing accepts -/

theorem parse_int_ok (v : String) (t : int_parse_type) (r : Int)
    (h : parse_int v t = Except.ok r) :
    r = atoi v ∧ (atoi v = 0 → v = "0") ∧
      (t = int_parse_type.non_negative → 0 ≤ r) ∧ (t = int_parse_type.positive → 0 < r) := by
  unfold parse_int at h
  simp only [] at h
  split at h
  · cases h
  · rename_i hz
    have hz' : atoi v = 0 → v = "0" := by
      intro h0
      by_contra hne
      exact hz ⟨h0, hne⟩
    cases t with
    | signed_int =>
      simp only [] at h
      exact ⟨(Except.ok.inj h).symm, hz', by simp, by simp⟩
    | non_negative =>
      simp only [] at h
      split at h
      · rename_i hge
        have hr := Except.ok.inj h
        exact ⟨hr.symm, hz', fun _ => by omega, by simp⟩
      · cases h
    | positive =>
      simp only [] at h
      split at h
      · rename_i hgt
        have hr := Except.ok.inj h
        exact ⟨hr.symm, hz', by simp, fun _ => by omega⟩
      · cases h

theorem parse_loop_valid : ∀ (args : List String) (cfg out : Config),
    0 < cfg.kvpairs_per_call ∧ 0 ≤ cfg.total_kvpairs ∧ 0 ≤ cfg.value_size →
    parse_loop args cfg = Except.ok out →
    0 < out.kvpairs_per_call ∧ 0 ≤ out.total_kvpairs ∧ 0 ≤ out.value_size
  | [], cfg, out, hv, h => by
    have e : cfg = out := by simpa [parse_loop] using h
    rw [← e]; exact hv
  | [a], cfg, out, _, h => by
    unfold parse_loop at h
    split at h <;> cases h
  | a :: b :: rest, cfg, out, hv, h => by
    rcases parse_loop_pair_ok a b rest cfg out h with
      ⟨_, r, hp, hr⟩ | ⟨_, r, hp, hr⟩ | ⟨_, r, hp, hr⟩
    · exact parse_loop_valid rest { cfg with total_kvpairs := r } out
        ⟨hv.1, (parse_int_ok b _ r hp).2.2.1 rfl, hv.2.2⟩ hr
    · exact parse_loop_valid rest { cfg with kvpairs_per_call := r } out
        ⟨(parse_int_ok b _ r hp).2.2.2 rfl, hv.2.1, hv.2.2⟩ hr
    · exact parse_loop_valid rest { cfg with value_size := r } out
        ⟨hv.1, hv.2.1, (parse_int_ok b _ r hp).2.2.1 rfl⟩ hr

/-- C14: for every argument list, if the parsing of the command line succeeds
then the resulting configuration has batchSize > 0, totalPairs ≥ 0 and
valueSize ≥ 0; `--kvpairs-per-call 0`, `--kvpairs-per-call -3` and
`--total-kvpairs -1` are each rejected. -/
theorem parse_command_line_invariant (args : List String) (cfg : Config)
    (h : parse_command_line args = Except.ok cfg) :
    (0 < cfg.kvpairs_per_call ∧ 0 ≤ cfg.total_kvpairs ∧ 0 ≤ cfg.value_size) ∧
    parse_command_line ["--kvpairs-per-call", "0"]
      = Except.error Failure.not_a_positive_integer_value ∧
    parse_command_line ["--kvpairs-per-call", "-3"]
      = Except.error Failure.not_a_positive_integer_value ∧
    parse_command_line ["--total-kvpairs", "-1"]
      = Except.error Failure.not_a_positive_integer_value :=
  ⟨parse_loop_valid args Config.initial cfg (by decide) h, by decide, by decide, by decide⟩

/-- Witness of C14: the command line `--total-kvpairs 0 --value-size 5`. -/
theorem parse_command_line_invariant_witness :
    (0 < (⟨1, 0, 5, omap_optype.omap_write⟩ : Config).kvpairs_per_call ∧
      0 ≤ (⟨1, 0, 5, omap_optype.omap_write⟩ : Config).total_kvpairs ∧
      0 ≤ (⟨1, 0, 5, omap_optype.omap_write⟩ : Config).value_size) ∧
    parse_command_line ["--kvpairs-per-call", "0"]
      = Except.error Failure.not_a_positive_integer_value ∧
    parse_command_line ["--kvpairs-per-call", "-3"]
      = Except.error Failure.not_a_positive_integer_value ∧
    parse_command_line ["--total-kvpairs", "-1"]
      = Except.error Failure.not_a_positive_integer_value :=
  parse_command_line_invariant ["--total-kvpairs", "0", "--value-size", "5"] _ (by decide)

/-! ## C15 and C16: the texts that `parse_int` accepts -/

theorem read_sign_spec (l : List Char) :
    ∃ sign, l = sign ++ (read_sign l).2 ∧ (sign = [] ∨ sign = ['-'] ∨ sign = ['+']) ∧
      ((read_sign l).1 = true ↔ sign = ['-']) := by
  unfold read_sign
  split
  · exact ⟨['-'], rfl, Or.inr (Or.inl rfl), by simp⟩
  · exact ⟨['+'], rfl, Or.inr (Or.inr rfl), by simp⟩
  · exact ⟨[], rfl, Or.inl rfl, by simp⟩

/-- The shape of a text for which `strtol` gives a value other than 0, and the
value it gives when that value fits an `int`. -/
theorem atoi_spec (v : String) :
    ∃ ws sign ds rest, v.data = ws ++ sign ++ ds ++ rest ∧
      (∀ c ∈ ws, isspace c = true) ∧ (sign = [] ∨ sign = ['-'] ∨ sign = ['+']) ∧
      (∀ c ∈ ds, c.isDigit = true) ∧ (∀ c, rest.head? = some c → c.isDigit = false) ∧
      (atoi v ≠ 0 → ds ≠ []) ∧
      (-2147483648 ≤ (if sign = ['-'] then -(digits_value ds : Int) else digits_value ds) →
        (if sign = ['-'] then -(digits_value ds : Int) else digits_value ds) ≤ 2147483647 →
        atoi v = (if sign = ['-'] then -(digits_value ds : Int) else digits_value ds)) := by
  obtain ⟨sign, hs1, hs2, hs3⟩ := read_sign_spec (v.data.dropWhile isspace)
  have hval : strtol v =
      (if (if sign = ['-'] then
            -(digits_value ((read_sign (v.data.dropWhile isspace)).2.takeWhile Char.isDigit) : Int)
          else digits_value ((read_sign (v.data.dropWhile isspace)).2.takeWhile Char.isDigit))
          < -9223372036854775808 then -9223372036854775808
        else if 9223372036854775807 <
          (if sign = ['-'] then
            -(digits_value ((read_sign (v.data.dropWhile isspace)).2.takeWhile Char.isDigit) : Int)
          else digits_value ((read_sign (v.data.dropWhile isspace)).2.takeWhile Char.isDigit))
          then 9223372036854775807
        else (if sign = ['-'] then
            -(digits_value ((read_sign (v.data.dropWhile isspace)).2.takeWhile Char.isDigit) : Int)
          else digits_value ((read_sign (v.data.dropWhile isspace)).2.takeWhile Char.isDigit))) := by
    unfold strtol
    simp only []
    by_cases hneg : (read_sign (v.data.dropWhile isspace)).1 = true
    · rw [if_pos hneg, if_pos (hs3.1 hneg)]
    · rw [if_neg hneg, if_neg (fun h => hneg (hs3.2 h))]
  refine ⟨v.data.takeWhile isspace, sign,
    (read_sign (v.data.dropWhile isspace)).2.takeWhile Char.isDigit,
    (read_sign (v.data.dropWhile isspace)).2.dropWhile Char.isDigit, ?_, ?_, hs2, ?_, ?_, ?_, ?_⟩
  · rw [List.append_assoc, List.takeWhile_append_dropWhile, List.append_assoc, ← hs1,
      List.takeWhile_append_dropWhile]
  · intro c hc
    exact List.mem_takeWhile_imp hc
  · intro c hc
    exact List.mem_takeWhile_imp hc
  · intro c hc
    have := List.head?_dropWhile_not Char.isDigit (read_sign (v.data.dropWhile isspace)).2
    rw [hc] at this
    simpa using this
  · intro hne hnil
    apply hne
    unfold atoi
    rw [hval, hnil]
    simp [digits_value, wrap32]
  · intro h0 h1
    unfold atoi
    rw [hval, if_neg (by omega), if_neg (by omega)]
    exact wrap32_of_range _ h0 h1

/-- C15 (as amended): if `parse_int` accepts a text v, then v consists of white
space (possibly none), an optional sign, one or more decimal digits, and a rest
that does not begin with a digit and is ignored; the returned value is the
number that the sign and the digits denote whenever that number fits a 32-bit
`int`. -/
theorem parse_int_accepts (v : String) (t : int_parse_type) (r : Int)
    (h : parse_int v t = Except.ok r) :
    ∃ ws sign ds rest, v.data = ws ++ sign ++ ds ++ rest ∧
      (∀ c ∈ ws, isspace c = true) ∧ (sign = [] ∨ sign = ['-'] ∨ sign = ['+']) ∧
      ds ≠ [] ∧ (∀ c ∈ ds, c.isDigit = true) ∧
      (∀ c, rest.head? = some c → c.isDigit = false) ∧
      (INT_MIN ≤ (if sign = ['-'] then -(digits_value ds : Int) else digits_value ds) →
        (if sign = ['-'] then -(digits_value ds : Int) else digits_value ds) ≤ INT_MAX →
        r = (if sign = ['-'] then -(digits_value ds : Int) else digits_value ds)) := by
  obtain ⟨hr, hz, _, _⟩ := parse_int_ok v t r h
  by_cases h0 : atoi v = 0
  · have hv : v = "0" := hz h0
    subst hv
    refine ⟨[], [], ['0'], [], rfl, by simp, Or.inl rfl, by simp, by decide, by simp, ?_⟩
    intro _ _
    rw [hr]
    decide
  · obtain ⟨ws, sign, ds, rest, e, hws, hsign, hds, hrest, hne, hvalue⟩ := atoi_spec v
    refine ⟨ws, sign, ds, rest, e, hws, hsign, hne h0, hds, hrest, ?_⟩
    intro a b
    rw [hr]
    exact hvalue a b

/-- Witness of C15: the text `-42`. -/
theorem parse_int_accepts_witness :
    ∃ ws sign ds rest, ("-42" : String).data = ws ++ sign ++ ds ++ rest ∧
      (∀ c ∈ ws, isspace c = true) ∧ (sign = [] ∨ sign = ['-'] ∨ sign = ['+']) ∧
      ds ≠ [] ∧ (∀ c ∈ ds, c.isDigit = true) ∧
      (∀ c, rest.head? = some c → c.isDigit = false) ∧
      (INT_MIN ≤ (if sign = ['-'] then -(digits_value ds : Int) else digits_value ds) →
        (if sign = ['-'] then -(digits_value ds : Int) else digits_value ds) ≤ INT_MAX →
        (-42 : Int) = (if sign = ['-'] then -(digits_value ds : Int) else digits_value ds)) :=
  parse_int_accepts "-42" int_parse_type.signed_int (-42) (by decide)

/-- C15 as stated fails: `parse_int` accepts the text `12abc` with the value 12
and the text ` 7` (a blank, then 7) with the value 7, neither of which is a
base-10 integer literal as a whole; and it accepts the literal `4294967297`
with the value 1, which is not the number the literal denotes. -/
theorem parse_int_accepts_counterexample :
    parse_int "12abc" int_parse_type.positive = Except.ok 12 ∧
    is_int_literal "12abc" = false ∧
    parse_int " 7" int_parse_type.non_negative = Except.ok 7 ∧
    is_int_literal " 7" = false ∧
    parse_int "4294967297" int_parse_type.positive = Except.ok 1 ∧
    is_int_literal "4294967297" = true := by
  decide

/-- C16: for every text v whose numeric conversion `atoi(v)` is 0 and every parse
type, `parse_int` accepts v if and only if v is exactly `0` and the parse type
is not `positive`, and the value is then 0; the texts `00`, `-0`, `+0`, the
empty text and `abc` are rejected for every parse type, and `--total-kvpairs 0`
and `--value-size 0` are accepted with the value 0. -/
theorem parse_int_zero (v : String) (t : int_parse_type) (h : atoi v = 0) :
    ((∃ r, parse_int v t = Except.ok r) ↔ (v = "0" ∧ t ≠ int_parse_type.positive)) ∧
    (∀ r, parse_int v t = Except.ok r → r = 0) ∧
    (∀ t', parse_int "00" t' = Except.error Failure.not_an_integer) ∧
    (∀ t', parse_int "-0" t' = Except.error Failure.not_an_integer) ∧
    (∀ t', parse_int "+0" t' = Except.error Failure.not_an_integer) ∧
    (∀ t', parse_int "" t' = Except.error Failure.not_an_integer) ∧
    (∀ t', parse_int "abc" t' = Except.error Failure.not_an_integer) ∧
    parse_command_line ["--total-kvpairs", "0"]
      = Except.ok ⟨1, 0, 2, omap_optype.omap_write⟩ ∧
    parse_command_line ["--value-size", "0"]
      = Except.ok ⟨1, 10, 0, omap_optype.omap_write⟩ := by
  refine ⟨⟨?_, ?_⟩, ?_, ?_, ?_, ?_, ?_, ?_, by decide, by decide⟩
  · rintro ⟨r, hr⟩
    obtain ⟨h1, h2, _, h4⟩ := parse_int_ok v t r hr
    refine ⟨h2 h, ?_⟩
    intro ht
    have := h4 ht
    omega
  · rintro ⟨hv, ht⟩
    subst hv
    cases t with
    | signed_int => exact ⟨0, by decide⟩
    | non_negative => exact ⟨0, by decide⟩
    | positive => exact absurd rfl ht
  · intro r hr
    rw [(parse_int_ok v t r hr).1, h]
  · intro t'; cases t' <;> decide
  · intro t'; cases t' <;> decide
  · intro t'; cases t' <;> decide
  · intro t'; cases t' <;> decide
  · intro t'; cases t' <;> decide

/-- Witness of C16: the text `0` read as a non-negative number. -/
theorem parse_int_zero_witness :
    ((∃ r, parse_int "0" int_parse_type.non_negative = Except.ok r) ↔
      (("0" : String) = "0" ∧ int_parse_type.non_negative ≠ int_parse_type.positive)) ∧
    (∀ r, parse_int "0" int_parse_type.non_negative = Except.ok r → r = 0) ∧
    (∀ t', parse_int "00" t' = Except.error Failure.not_an_integer) ∧
    (∀ t', parse_int "-0" t' = Except.error Failure.not_an_integer) ∧
    (∀ t', parse_int "+0" t' = Except.error Failure.not_an_integer) ∧
    (∀ t', parse_int "" t' = Except.error Failure.not_an_integer) ∧
    (∀ t', parse_int "abc" t' = Except.error Failure.not_an_integer) ∧
    parse_command_line ["--total-kvpairs", "0"]
      = Except.ok ⟨1, 0, 2, omap_optype.omap_write⟩ ∧
    parse_command_line ["--value-size", "0"]
      = Except.ok ⟨1, 10, 0, omap_optype.omap_write⟩ :=
  parse_int_zero "0" int_parse_type.non_negative (by decide)

/-! ## C17: unknown flags and missing values -/

theorem parse_loop_shape : ∀ (args : List String) (cfg out : Config),
    parse_loop args cfg = Except.ok out →
    args.length % 2 = 0 ∧ ∀ (k : Nat) (tok : String), args[2 * k]? = some tok →
      tok ∈ known_flags
  | [], _, _, _ => by simp
  | [a], cfg, out, h => by
    unfold parse_loop at h
    split at h <;> cases h
  | a :: b :: rest, cfg, out, h => by
    have ha : a ∈ known_flags ∧ ∃ cfg', parse_loop rest cfg' = Except.ok out := by
      rcases parse_loop_pair_ok a b rest cfg out h with
        ⟨e, r, _, hr⟩ | ⟨e, r, _, hr⟩ | ⟨e, r, _, hr⟩
      · exact ⟨by rw [e]; decide, _, hr⟩
      · exact ⟨by rw [e]; decide, _, hr⟩
      · exact ⟨by rw [e]; decide, _, hr⟩
    obtain ⟨hk, cfg', hr⟩ := ha
    obtain ⟨h1, h2⟩ := parse_loop_shape rest cfg' out hr
    refine ⟨by simp only [List.length_cons]; omega, ?_⟩
    intro k tok htok
    cases k with
    | zero =>
      simp at htok
      rw [← htok]; exact hk
    | succ k =>
      have e : 2 * (k + 1) = (2 * k + 1) + 1 := by ring
      rw [e, List.getElem?_cons_succ, List.getElem?_cons_succ] at htok
      exact h2 k tok htok

theorem known_flags_have_dashes (tok : String) (h : tok ∈ known_flags) :
    has_dashes tok = true := by
  simp only [known_flags, List.mem_cons, List.mem_singleton, List.not_mem_nil, or_false] at h
  rcases h with h | h | h | h <;> rw [h] <;> decide

/-- C17: for every argument list, if some token in a flag position (the 1st, 3rd,
5th, .. argument) does not start with `--`, or is none of `--operation`,
`--kvpairs-per-call`, `--total-kvpairs`, `--value-size`, or is the last token
and so has no value after it, then the parsing of the command line fails and
`main` ends with the non-zero status `EXIT_FAILURE` before any handle is
created or any batch generated; hence parsing succeeds only on an even number
of tokens in which every flag position holds one of the four flags. -/
theorem unknown_flags_fatal (args : List String) (k : Nat) (tok : String)
    (htok : args[2 * k]? = some tok)
    (hbad : has_dashes tok = false ∨ tok ∉ known_flags ∨ 2 * k + 1 = args.length) :
    (∃ e, parse_command_line args = Except.error e) ∧
    (∀ (env : Env) (fuel : Nat), ∃ e,
      main env args fuel = ⟨none, [], [], [], ProcessEnd.exited EXIT_FAILURE e⟩) ∧
    EXIT_FAILURE ≠ 0 ∧
    (∀ (args' : List String) (cfg : Config), parse_command_line args' = Except.ok cfg →
      args'.length % 2 = 0 ∧
      ∀ (j : Nat) (t : String), args'[2 * j]? = some t → t ∈ known_flags) := by
  have hfail : ∃ e, parse_command_line args = Except.error e := by
    cases hp : parse_command_line args with
    | error e => exact ⟨e, rfl⟩
    | ok cfg =>
      exfalso
      obtain ⟨h1, h2⟩ := parse_loop_shape args Config.initial cfg hp
      have hk := h2 k tok htok
      rcases hbad with hb | hb | hb
      · rw [known_flags_have_dashes tok hk] at hb
        cases hb
      · exact hb hk
      · omega
  refine ⟨hfail, ?_, by decide, fun args' cfg h => parse_loop_shape args' Config.initial cfg h⟩
  intro env fuel
  obtain ⟨e, he⟩ := hfail
  exact ⟨e, main_of_parse_error env args fuel e he⟩

/-- Witness of C17: in `--value-size 3 --bogus 1` the 3rd argument is no known
flag. -/
theorem unknown_flags_fatal_witness :
    (∃ e, parse_command_line ["--value-size", "3", "--bogus", "1"] = Except.error e) ∧
    (∀ (env : Env) (fuel : Nat), ∃ e,
      main env ["--value-size", "3", "--bogus", "1"] fuel
        = ⟨none, [], [], [], ProcessEnd.exited EXIT_FAILURE e⟩) ∧
    EXIT_FAILURE ≠ 0 ∧
    (∀ (args' : List String) (cfg : Config), parse_command_line args' = Except.ok cfg →
      args'.length % 2 = 0 ∧
      ∀ (j : Nat) (t : String), args'[2 * j]? = some t → t ∈ known_flags) :=
  unknown_flags_fatal ["--value-size", "3", "--bogus", "1"] 1 "--bogus" (by decide)
    (Or.inr (Or.inl (by decide)))

/-! ## C20: the last occurrence of a flag wins -/

theorem parse_loop_last : ∀ (args : List String) (cfg out : Config),
    parse_loop args cfg = Except.ok out →
    ((∀ v, last_flag_value "--kvpairs-per-call" args = some v →
        parse_int v int_parse_type.positive = Except.ok out.kvpairs_per_call) ∧
      (last_flag_value "--kvpairs-per-call" args = none →
        out.kvpairs_per_call = cfg.kvpairs_per_call)) ∧
    ((∀ v, last_flag_value "--total-kvpairs" args = some v →
        parse_int v int_parse_type.non_negative = Except.ok out.total_kvpairs) ∧
      (last_flag_value "--total-kvpairs" args = none →
        out.total_kvpairs = cfg.total_kvpairs)) ∧
    ((∀ v, last_flag_value "--value-size" args = some v →
        parse_int v int_parse_type.non_negative = Except.ok out.value_size) ∧
      (last_flag_value "--value-size" args = none → out.value_size = cfg.value_size)) ∧
    out.optype = cfg.optype
  | [], cfg, out, h => by
    have e : cfg = out := by simpa [parse_loop] using h
    rw [← e]
    simp [last_flag_value]
  | [a], cfg, out, h => by
    unfold parse_loop at h
    split at h <;> cases h
  | a :: b :: rest, cfg, out, h => by
    have n1 : ("--total-kvpairs" : String) ≠ "--kvpairs-per-call" := by decide
    have n2 : ("--total-kvpairs" : String) ≠ "--value-size" := by decide
    have n3 : ("--kvpairs-per-call" : String) ≠ "--total-kvpairs" := by decide
    have n4 : ("--kvpairs-per-call" : String) ≠ "--value-size" := by decide
    have n5 : ("--value-size" : String) ≠ "--kvpairs-per-call" := by decide
    have n6 : ("--value-size" : String) ≠ "--total-kvpairs" := by decide
    rcases parse_loop_pair_ok a b rest cfg out h with
      ⟨e, r, hp, hr⟩ | ⟨e, r, hp, hr⟩ | ⟨e, r, hp, hr⟩
    · obtain ⟨⟨k1, k2⟩, ⟨t1, t2⟩, ⟨v1, v2⟩, ho⟩ :=
        parse_loop_last rest { cfg with total_kvpairs := r } out hr
      subst e
      refine ⟨⟨?_, ?_⟩, ⟨?_, ?_⟩, ⟨?_, ?_⟩, ho⟩
      · intro v hv
        cases hl : last_flag_value "--kvpairs-per-call" rest with
        | none => simp [last_flag_value, hl, n1] at hv
        | some x => simp [last_flag_value, hl] at hv; exact k1 v (by rw [hl, hv])
      · intro hv
        cases hl : last_flag_value "--kvpairs-per-call" rest with
        | none => exact k2 hl
        | some x => simp [last_flag_value, hl] at hv
      · intro v hv
        cases hl : last_flag_value "--total-kvpairs" rest with
        | none =>
          simp [last_flag_value, hl] at hv
          rw [← hv, hp, t2 hl]
        | some x => simp [last_flag_value, hl] at hv; exact t1 v (by rw [hl, hv])
      · intro hv
        cases hl : last_flag_value "--total-kvpairs" rest with
        | none => simp [last_flag_value, hl] at hv
        | some x => simp [last_flag_value, hl] at hv
      · intro v hv
        cases hl : last_flag_value "--value-size" rest with
        | none => simp [last_flag_value, hl, n2] at hv
        | some x => simp [last_flag_value, hl] at hv; exact v1 v (by rw [hl, hv])
      · intro hv
        cases hl : last_flag_value "--value-size" rest with
        | none => exact v2 hl
        | some x => simp [last_flag_value, hl] at hv
    · obtain ⟨⟨k1, k2⟩, ⟨t1, t2⟩, ⟨v1, v2⟩, ho⟩ :=
        parse_loop_last rest { cfg with kvpairs_per_call := r } out hr
      subst e
      refine ⟨⟨?_, ?_⟩, ⟨?_, ?_⟩, ⟨?_, ?_⟩, ho⟩
      · intro v hv
        cases hl : last_flag_value "--kvpairs-per-call" rest with
        | none =>
          simp [last_flag_value, hl] at hv
          rw [← hv, hp, k2 hl]
        | some x => simp [last_flag_value, hl] at hv; exact k1 v (by rw [hl, hv])
      · intro hv
        cases hl : last_flag_value "--kvpairs-per-call" rest with
        | none => simp [last_flag_value, hl] at hv
        | some x => simp [last_flag_value, hl] at hv
      · intro v hv
        cases hl : last_flag_value "--total-kvpairs" rest with
        | none => simp [last_flag_value, hl, n3] at hv
        | some x => simp [last_flag_value, hl] at hv; exact t1 v (by rw [hl, hv])
      · intro hv
        cases hl : last_flag_value "--total-kvpairs" rest with
        | none => exact t2 hl
        | some x => simp [last_flag_value, hl] at hv
      · intro v hv
        cases hl : last_flag_value "--value-size" rest with
        | none => simp [last_flag_value, hl, n4] at hv
        | some x => simp [last_flag_value, hl] at hv; exact v1 v (by rw [hl, hv])
      · intro hv
        cases hl : last_flag_value "--value-size" rest with
        | none => exact v2 hl
        | some x => simp [last_flag_value, hl] at hv
    · obtain ⟨⟨k1, k2⟩, ⟨t1, t2⟩, ⟨v1, v2⟩, ho⟩ :=
        parse_loop_last rest { cfg with value_size := r } out hr
      subst e
      refine ⟨⟨?_, ?_⟩, ⟨?_, ?_⟩, ⟨?_, ?_⟩, ho⟩
      · intro v hv
        cases hl : last_flag_value "--kvpairs-per-call" rest with
        | none => simp [last_flag_value, hl, n5] at hv
        | some x => simp [last_flag_value, hl] at hv; exact k1 v (by rw [hl, hv])
      · intro hv
        cases hl : last_flag_value "--kvpairs-per-call" rest with
        | none => exact k2 hl
        | some x => simp [last_flag_value, hl] at hv
      · intro v hv
        cases hl : last_flag_value "--total-kvpairs" rest with
        | none => simp [last_flag_value, hl, n6] at hv
        | some x => simp [last_flag_value, hl] at hv; exact t1 v (by rw [hl, hv])
      · intro hv
        cases hl : last_flag_value "--total-kvpairs" rest with
        | none => exact t2 hl
        | some x => simp [last_flag_value, hl] at hv
      · intro v hv
        cases hl : last_flag_value "--value-size" rest with
        | none =>
          simp [last_flag_value, hl] at hv
          rw [← hv, hp, v2 hl]
        | some x => simp [last_flag_value, hl] at hv; exact v1 v (by rw [hl, hv])
      · intro hv
        cases hl : last_flag_value "--value-size" rest with
        | none => simp [last_flag_value, hl] at hv
        | some x => simp [last_flag_value, hl] at hv

/-- C20: for every argument list on which the parsing of the command line
succeeds, each of batchSize, totalPairs and valueSize is the value `parse_int`
returns for the value given with the last occurrence of its own flag
(`--kvpairs-per-call`, `--total-kvpairs`, `--value-size`), or its default (1, 10
and 2) when that flag does not occur, and the operation is write; with no
arguments the configuration is batchSize = 1, totalPairs = 10, valueSize = 2,
operation write. -/
theorem last_occurrence_wins (args : List String) (cfg : Config)
    (h : parse_command_line args = Except.ok cfg) :
    ((∀ v, last_flag_value "--kvpairs-per-call" args = some v →
        parse_int v int_parse_type.positive = Except.ok cfg.kvpairs_per_call) ∧
      (last_flag_value "--kvpairs-per-call" args = none → cfg.kvpairs_per_call = 1)) ∧
    ((∀ v, last_flag_value "--total-kvpairs" args = some v →
        parse_int v int_parse_type.non_negative = Except.ok cfg.total_kvpairs) ∧
      (last_flag_value "--total-kvpairs" args = none → cfg.total_kvpairs = 10)) ∧
    ((∀ v, last_flag_value "--value-size" args = some v →
        parse_int v int_parse_type.non_negative = Except.ok cfg.value_size) ∧
      (last_flag_value "--value-size" args = none → cfg.value_size = 2)) ∧
    cfg.optype = omap_optype.omap_write ∧
    parse_command_line [] = Except.ok ⟨1, 10, 2, omap_optype.omap_write⟩ :=
  ⟨(parse_loop_last args Config.initial cfg h).1, (parse_loop_last args Config.initial cfg h).2.1,
    (parse_loop_last args Config.initial cfg h).2.2.1,
    (parse_loop_last args Config.initial cfg h).2.2.2, by decide⟩

/-- Witness of C20: `--value-size 5 --total-kvpairs 7 --value-size 9` gives
valueSize = 9, totalPairs = 7 and the default batchSize = 1. -/
theorem last_occurrence_wins_witness :
    ((∀ v, last_flag_value "--kvpairs-per-call"
          ["--value-size", "5", "--total-kvpairs", "7", "--value-size", "9"] = some v →
        parse_int v int_parse_type.positive
          = Except.ok (⟨1, 7, 9, omap_optype.omap_write⟩ : Config).kvpairs_per_call) ∧
      (last_flag_value "--kvpairs-per-call"
          ["--value-size", "5", "--total-kvpairs", "7", "--value-size", "9"] = none →
        (⟨1, 7, 9, omap_optype.omap_write⟩ : Config).kvpairs_per_call = 1)) ∧
    ((∀ v, last_flag_value "--total-kvpairs"
          ["--value-size", "5", "--total-kvpairs", "7", "--value-size", "9"] = some v →
        parse_int v int_parse_type.non_negative
          = Except.ok (⟨1, 7, 9, omap_optype.omap_write⟩ : Config).total_kvpairs) ∧
      (last_flag_value "--total-kvpairs"
          ["--value-size", "5", "--total-kvpairs", "7", "--value-size", "9"] = none →
        (⟨1, 7, 9, omap_optype.omap_write⟩ : Config).total_kvpairs = 10)) ∧
    ((∀ v, last_flag_value "--value-size"
          ["--value-size", "5", "--total-kvpairs", "7", "--value-size", "9"] = some v →
        parse_int v int_parse_type.non_negative
          = Except.ok (⟨1, 7, 9, omap_optype.omap_write⟩ : Config).value_size) ∧
      (last_flag_value "--value-size"
          ["--value-size", "5", "--total-kvpairs", "7", "--value-size", "9"] = none →
        (⟨1, 7, 9, omap_optype.omap_write⟩ : Config).value_size = 2)) ∧
    (⟨1, 7, 9, omap_optype.omap_write⟩ : Config).optype = omap_optype.omap_write ∧
    parse_command_line [] = Except.ok ⟨1, 10, 2, omap_optype.omap_write⟩ :=
  last_occurrence_wins ["--value-size", "5", "--total-kvpairs", "7", "--value-size", "9"] _
    (by decide)

/-! ## C18: release of the handles -/

/-- C18, the code at failing inputs. In a run without arguments in which every
call succeeds, `main` returns 0 after the cluster handle 7 and the I/O context 9
were created, and neither `rados_ioctx_destroy` nor `rados_shutdown` is ever
called. When the set-up write or the 3rd batch submission fails, `cleanup`
shuts the cluster handle down but calls `rados_ioctx_destroy` on the null
handle of the file-scope `io`, not on the I/O context 9 that was created. When
the connection fails, before any I/O context exists, the cluster handle is
released. -/
theorem handles_not_released :
    (main Env.all_ok [] 11).ending = ProcessEnd.returned 0 ⟨0, 700000000⟩ ∧
    (main Env.all_ok [] 11).calls = [Call.rados_create2 7, Call.rados_ioctx_create 9] ∧
    (main Env.write_fails [] 11).ending
      = ProcessEnd.exited EXIT_FAILURE Failure.write_object ∧
    (main Env.write_fails [] 11).calls
      = [Call.rados_create2 7, Call.rados_ioctx_create 9, Call.rados_ioctx_destroy 0,
          Call.rados_shutdown 7] ∧
    (main Env.batch_fails [] 11).ending
      = ProcessEnd.exited EXIT_FAILURE Failure.in_write_loop ∧
    (main Env.batch_fails [] 11).calls
      = [Call.rados_create2 7, Call.rados_ioctx_create 9, Call.rados_ioctx_destroy 0,
          Call.rados_shutdown 7] ∧
    (main Env.connect_fails [] 11).calls = [Call.rados_create2 7, Call.rados_shutdown 7] := by
  decide

/-! ## C19: termination of the write loop -/

end RadosOmap
